import Mathlib

/-!
The driver msm_thermal_simple: zone classification, frequency snapping and
clamping.

A shallow embedding of `drivers/thermal/msm_thermal_simple.c`.

* `uint32_t` values (frequencies, cpu numbers, sampling period) are `Nat`; the
  driver only compares and copies them, so no arithmetic can wrap.  The one
  shift, `CPU_MASK`, is defined in C for cpu numbers below 32 only; the
  theorems that depend on the cpu family assume such a cpu.
* `int64_t` temperatures and the `int32_t` zone index are `Int`; the driver
  only compares temperatures and assigns `i`, `i - 1` or `-1` to the index.
* The spin lock, the work queue and the sysfs handles carry no data that the
  algorithms read; every function is modelled as one atomic step.
-/

namespace MsmThermal

/-! ## Constants -/

/-- The sentinel zone index, `#define UNTHROTTLE_ZONE (-1)`. -/
def UNTHROTTLE_ZONE : Int := -1

/-- The default period, `#define DEFAULT_SAMPLING_MS 3000`. -/
def DEFAULT_SAMPLING_MS : Nat := 3000

/-- The size of the zone array, `#define NR_THERMAL_ZONES 16`. -/
def NR_THERMAL_ZONES : Nat := 16

/-- The macro `#define CPU_MASK(cpu) (1U << (cpu))`, a shift of a 32-bit
unsigned value.  C defines it for `cpu < 32` only; for a larger `cpu` the
compiled code takes the shift count modulo 32, and so does the model. -/
def CPU_MASK (cpu : Nat) : Nat := 1 <<< (cpu % 32)

/-- The mask `#define LITTLE_CPU_MASK (CPU_MASK(0) | CPU_MASK(1))`. -/
def LITTLE_CPU_MASK : Nat := CPU_MASK 0 ||| CPU_MASK 1

/-- Modelled from the spec: the marker `CPUFREQ_ENTRY_INVALID` (`~0u`) of
`linux/cpufreq.h`, which is not among the source files; the spec speaks of the
"valid frequency steps" of a table, and an entry with this value is not one. -/
def CPUFREQ_ENTRY_INVALID : Nat := 2 ^ 32 - 1

/-- Modelled from the spec: the terminator `CPUFREQ_TABLE_END` (`~1u`) of
`linux/cpufreq.h`, which is not among the source files; it ends the sequence of
frequency steps. -/
def CPUFREQ_TABLE_END : Nat := 2 ^ 32 - 2

/-- Modelled from the spec: the notifier event `CPUFREQ_ADJUST` of
`linux/cpufreq.h`, which is not among the source files; it is the event of a
frequency-policy negotiation.  No theorem depends on its value. -/
def CPUFREQ_ADJUST : Nat := 0

/-! ## Data model -/

/-- The `struct thermal_config`, without the ADC handles. -/
structure thermal_config where
  enabled : Bool
  sampling_ms : Nat
deriving DecidableEq, Repr

/-- The `struct thermal_zone`; `freq0` is `freq[0]` (LITTLE), `freq1` is `freq[1]`
(big). -/
structure thermal_zone where
  freq0 : Nat
  freq1 : Nat
  trip_degC : Int
  reset_degC : Int
deriving DecidableEq, Repr

/-- The `struct thermal_policy`, without lock, work item, work queue and sysfs
handles.  `zone i` is `zone[i]` for `i` below `NR_THERMAL_ZONES`, the size of the array.
An index from `NR_THERMAL_ZONES` on lies outside the array: the C program has
no defined behaviour there, and what the model holds at such an index says
nothing about the program. -/
structure thermal_policy where
  conf : thermal_config
  zone : Nat → thermal_zone
  throttle_active : Bool
  curr_zone : Int

/-- The fields of `struct cpufreq_policy` that `do_cpu_throttle` uses.
`freq_table` holds the `frequency` members of the table entries in order; an
entry read behind the end of the list is `CPUFREQ_TABLE_END`. -/
structure cpufreq_policy where
  cpu : Nat
  min : Nat
  max : Nat
  user_policy_max : Nat
  freq_table : List Nat
deriving DecidableEq, Repr

/-- A zone as `kzalloc` leaves it. -/
def zero_zone : thermal_zone := ⟨0, 0, 0, 0⟩

/-- The zone array that holds the zones of `l` from index 0 on and zeroed
zones behind them. -/
def zones_of (l : List thermal_zone) : Nat → thermal_zone :=
  fun i => l.getD i zero_zone

/-! ## Frequency table -/

/-- The value `pos->frequency` for a cursor `pos`, given as the entries from the cursor
on. -/
def frequency (pos : List Nat) : Nat := pos.headD CPUFREQ_TABLE_END

/-- Modelled from the spec: `cpufreq_next_valid` of `linux/cpufreq.h`, which is
not among the source files.  It moves the cursor forward to the first valid
step (an entry that is not `CPUFREQ_ENTRY_INVALID`) and returns `true`, or
stops at the end of the table and returns `false`. -/
def cpufreq_next_valid : List Nat → Bool × List Nat
  | [] => (false, [])
  | x :: xs =>
    if x = CPUFREQ_TABLE_END then (false, x :: xs)
    else if x ≠ CPUFREQ_ENTRY_INVALID then (true, x :: xs)
    else cpufreq_next_valid xs

/-- The `while (1)` loop of `validate_cpu_freq`.  Every iteration moves `pos`
forward, so the loop is run with a budget of iterations; `none` means the
budget is used up. -/
def validate_loop : Nat → List Nat → Nat → Option (Bool × Nat)
  | 0, _, _ => none
  | fuel + 1, pos, freq =>
    if freq = frequency pos then some (false, freq)
    else
      let next := cpufreq_next_valid pos.tail
      if !next.1 then some (true, frequency pos)
      else if freq > frequency pos ∧ freq < frequency next.2 then
        some (true, frequency next.2)
      else validate_loop fuel next.2 freq

/-- The function `validate_cpu_freq(pos, &freq)`: the returned `bool` and the final `*freq`.
The loop gets one iteration more than the table has entries. -/
def validate_cpu_freq (pos : List Nat) (freq : Nat) : Option (Bool × Nat) :=
  let pos1 := (cpufreq_next_valid pos).2
  if freq < frequency pos1 then some (true, frequency pos1)
  else validate_loop (pos.length + 1) pos1 freq

/-! ## Throttle frequency of a zone -/

/-- The function `get_throttle_freq(t, idx, cpu)`. -/
def get_throttle_freq (t : thermal_policy) (idx : Int) (cpu : Nat) : Nat :=
  let zone := t.zone idx.toNat
  if CPU_MASK cpu &&& LITTLE_CPU_MASK ≠ 0 then zone.freq0 else zone.freq1

/-- The function `set_throttle_freq(t, idx, cpu, freq)`. -/
def set_throttle_freq (t : thermal_policy) (idx : Int) (cpu : Nat) (freq : Nat) :
    thermal_policy :=
  let zone := t.zone idx.toNat
  let zone1 : thermal_zone :=
    if CPU_MASK cpu &&& LITTLE_CPU_MASK ≠ 0 then { zone with freq0 := freq }
    else { zone with freq1 := freq }
  { t with zone := Function.update t.zone idx.toNat zone1 }

/-! ## The periodic tick -/

/-- The `for` loop of `msm_thermal_main` from index `i` on, with `n` iterations
left (`n = NR_THERMAL_ZONES - i`).  A `break` returns the policy as it is at
that point. -/
def zone_loop (t : thermal_policy) (temp : Int) : Nat → Nat → thermal_policy
  | 0, _ => t
  | n + 1, i =>
    if (t.zone i).freq0 = 0 then { t with curr_zone := (i : Int) - 1 }
    else if i = NR_THERMAL_ZONES - 1 then { t with curr_zone := (i : Int) }
    else if temp > (t.zone i).reset_degC then
      if temp < (t.zone (i + 1)).trip_degC ∧
          (temp ≥ (t.zone i).trip_degC ∨ t.curr_zone ≠ UNTHROTTLE_ZONE) then
        { t with curr_zone := (i : Int) }
      else if i = 0 ∧ t.curr_zone = UNTHROTTLE_ZONE ∧
          temp < (t.zone 0).trip_degC then t
      else zone_loop t temp n (i + 1)
    else if i = 0 then { t with curr_zone := UNTHROTTLE_ZONE }
    else zone_loop t temp n (i + 1)

/-- What a tick leaves behind: the policy, whether `update_online_cpu_policy`
was called, and the delay in milliseconds given to `queue_delayed_work`. -/
structure tick_result where
  t : thermal_policy
  update_policy : Bool
  resched_ms : Nat

/-- The work function `msm_thermal_main`.  `adc` is the outcome of `qpnp_vadc_read`: `none` for a
non-zero return value, `some temp` for `result.physical = temp`. -/
def msm_thermal_main (t : thermal_policy) (adc : Option Int) : tick_result :=
  match adc with
  | none => { t := t, update_policy := false, resched_ms := t.conf.sampling_ms }
  | some temp =>
    let old_zone := t.curr_zone
    let t1 := zone_loop t temp NR_THERMAL_ZONES 0
    let t2 := if t1.curr_zone ≠ UNTHROTTLE_ZONE then
      { t1 with throttle_active := true } else t1
    { t := t2, update_policy := decide (t2.curr_zone ≠ old_zone),
      resched_ms := t2.conf.sampling_ms }

/-! ## The cpufreq policy notifier -/

/-- The notifier `do_cpu_throttle(nb, val, data)`: the thermal policy and the cpufreq policy
it leaves behind.  Every path returns `NOTIFY_OK`; `none` only if
`validate_cpu_freq` does not return. -/
def do_cpu_throttle (t : thermal_policy) (val : Nat) (policy : cpufreq_policy) :
    Option (thermal_policy × cpufreq_policy) :=
  if val ≠ CPUFREQ_ADJUST then some (t, policy)
  else
    let active := t.throttle_active
    let zone := t.curr_zone
    if !active then some (t, policy)
    else
      let r : Option (thermal_policy × cpufreq_policy) :=
        if zone = UNTHROTTLE_ZONE then
          some ({ t with throttle_active := false },
                { policy with max := policy.user_policy_max })
        else
          match validate_cpu_freq policy.freq_table
              (get_throttle_freq t zone policy.cpu) with
          | none => none
          | some (ret, new_max) =>
            let t1 := if ret then set_throttle_freq t zone policy.cpu new_max else t
            let policy1 := if policy.max > new_max then
              { policy with max := new_max } else policy
            some (t1, policy1)
      match r with
      | none => none
      | some (t1, policy1) =>
        some (t1, if policy1.min > policy1.max then
          { policy1 with min := policy1.max } else policy1)

/-! ## Configuration writes -/

/-- What a sysfs store function leaves behind: the policy, whether it returned
`size` (`false` stands for `-EINVAL`), whether a tick was queued with delay 0,
and whether `update_online_cpu_policy` was called. -/
structure store_result where
  t : thermal_policy
  ok : Bool
  queued : Bool
  update_policy : Bool

/-- The store function `enabled_write`.  `data` is the outcome of `kstrtou32`,
`none` for an error. -/
def enabled_write (t : thermal_policy) (data : Option Nat) : store_result :=
  match data with
  | none => { t := t, ok := false, queued := false, update_policy := false }
  | some data =>
    let t1 := { t with conf := { t.conf with enabled := decide (data ≠ 0) } }
    if data ≠ 0 then
      { t := t1, ok := true, queued := true, update_policy := false }
    else
      { t := { t1 with curr_zone := UNTHROTTLE_ZONE }, ok := true, queued := false,
        update_policy := true }

/-- The store function `sampling_ms_write`.  `data` is the outcome of
`kstrtou32`, `none` for an error. -/
def sampling_ms_write (t : thermal_policy) (data : Option Nat) : store_result :=
  match data with
  | none => { t := t, ok := false, queued := false, update_policy := false }
  | some data =>
    { t := { t with conf := { t.conf with sampling_ms := data } }, ok := true,
      queued := false, update_policy := false }

/-- The function `get_thermal_zone_number`.  `scan` is the number that `sscanf`
reads behind "zone" in the attribute name, `none` when it reads none. -/
def get_thermal_zone_number (scan : Option Nat) : Nat :=
  match scan with
  | none => 0
  | some num => num

/-- The store function `thermal_zone_write`.  `buf` is the outcome of the
four-field `sscanf`, `none` when it does not read four fields; `name` is the
outcome of the `sscanf` on the attribute name. -/
def thermal_zone_write (t : thermal_policy) (name : Option Nat)
    (buf : Option (Nat × Nat × Int × Int)) : store_result :=
  match buf with
  | none => { t := t, ok := false, queued := false, update_policy := false }
  | some (f0, f1, trip, reset) =>
    let idx := get_thermal_zone_number name
    let zone1 : thermal_zone :=
      { freq0 := f0, freq1 := f1, trip_degC := trip, reset_degC := reset }
    { t := { t with zone := Function.update t.zone idx zone1 }, ok := true,
      queued := false, update_policy := false }

/-! ## Configuration reads -/

/-- The show function `enabled_read`: the number that `"%d\n"` prints for
`t->conf.enabled`. -/
def enabled_read (t : thermal_policy) : Nat :=
  if t.conf.enabled then 1 else 0

/-- The show function `sampling_ms_read`: the number that `"%u\n"` prints. -/
def sampling_ms_read (t : thermal_policy) : Nat :=
  t.conf.sampling_ms

/-- The show function `thermal_zone_read`: the four numbers that
`"%u %u %lld %lld\n"` prints.  `name` is the outcome of the `sscanf` on the
attribute name. -/
def thermal_zone_read (t : thermal_policy) (name : Option Nat) : Nat × Nat × Int × Int :=
  let idx := get_thermal_zone_number name
  ((t.zone idx).freq0, (t.zone idx).freq1, (t.zone idx).trip_degC, (t.zone idx).reset_degC)

/-- The attributes that the loop of `sysfs_zone_attr_init` creates: attribute
`i`, for `i` from 0 below `NR_THERMAL_ZONES`, is named by `"zone%d"` of `i`.
Each is given as what the `sscanf` with `"zone%u"` reads back from its name.
`thermal_zone_read` and `thermal_zone_write` are the show and store functions
of these attributes and of no other. -/
def sysfs_zone_attr_init : List (Option Nat) :=
  (List.range NR_THERMAL_ZONES).map some

/-! ## Start-up -/

/-- The function `alloc_thermal_policy`: `kzalloc` zeroes every field.  `mem` and `wq` say
whether `kzalloc` and `alloc_workqueue` succeed; `none` is `NULL`. -/
def alloc_thermal_policy (mem wq : Bool) : Option thermal_policy :=
  if !mem then none
  else if !wq then none
  else some { conf := { enabled := false, sampling_ms := 0 },
              zone := fun _ => zero_zone,
              throttle_active := false,
              curr_zone := 0 }

/-- The function `msm_thermal_probe`: the policy published in `t_policy_g` on success.
`dt` and `sysfs` are the return values of `msm_thermal_parse_dt` and
`sysfs_thermal_init`; an error is the negative `errno`. -/
def msm_thermal_probe (mem wq : Bool) (dt sysfs : Int) : Except Int thermal_policy :=
  match alloc_thermal_policy mem wq with
  | none => .error (-12)
  | some t =>
    if dt ≠ 0 then .error dt
    else
      let t1 := { t with conf := { t.conf with sampling_ms := DEFAULT_SAMPLING_MS } }
      if sysfs ≠ 0 then .error sysfs
      else .ok t1

/-! ## Specification-side definitions -/

/-- The valid steps of a frequency table: the entries before the terminator
that are not `CPUFREQ_ENTRY_INVALID`. -/
def valid_steps : List Nat → List Nat
  | [] => []
  | x :: xs =>
    if x = CPUFREQ_TABLE_END then []
    else if x ≠ CPUFREQ_ENTRY_INVALID then x :: valid_steps xs
    else valid_steps xs

/-- The operation `snap_at_or_above` as the specification words it: the first step at or
above `requested` in an ascending sequence, or the highest step when there is
none. -/
def snap_at_or_above (steps : List Nat) (requested : Nat) : Nat :=
  match steps.find? (fun s => decide (requested ≤ s)) with
  | some s => s
  | none => steps.getLastD requested

/-- The number of configured zones, among the zones `0 .. n-1`, whose trip
temperature is at or below `temp`. -/
def trips_at_or_below (zone : Nat → thermal_zone) (n : Nat) (temp : Int) : Nat :=
  (List.range n).countP (fun j => decide ((zone j).trip_degC ≤ temp))

/-- The invariant of `ThrottleState`: a zone other than `UNTHROTTLE_ZONE`
implies `throttle_active`. -/
def state_inv (t : thermal_policy) : Prop :=
  t.curr_zone ≠ UNTHROTTLE_ZONE → t.throttle_active = true

/-- A zone table with exactly the zones `0 .. n-1` configured: `freq[0]` is
non-zero below `n`, zone `n` is unconfigured when it exists, the trip
temperatures increase strictly and every reset lies below its trip. -/
def well_formed (zone : Nat → thermal_zone) (n : Nat) : Prop :=
  1 ≤ n ∧ n ≤ NR_THERMAL_ZONES ∧
  (∀ j, j < n → (zone j).freq0 ≠ 0) ∧
  (n < NR_THERMAL_ZONES → (zone n).freq0 = 0) ∧
  (∀ k, k < n → ∀ j, j < k → (zone j).trip_degC < (zone k).trip_degC) ∧
  (∀ j, j < n → (zone j).reset_degC < (zone j).trip_degC)

/-- A zone table with the three configured zones of the examples of the
specification, trip 40, 50, 60 and reset 35, 45, 55, and zone 3 unconfigured; the
frequencies of the three zones and the zones behind zone 3 are free. -/
def spec_example_table (zone : Nat → thermal_zone) : Prop :=
  ((zone 0).freq0 ≠ 0 ∧ (zone 0).trip_degC = 40 ∧ (zone 0).reset_degC = 35) ∧
  ((zone 1).freq0 ≠ 0 ∧ (zone 1).trip_degC = 50 ∧ (zone 1).reset_degC = 45) ∧
  ((zone 2).freq0 ≠ 0 ∧ (zone 2).trip_degC = 60 ∧ (zone 2).reset_degC = 55) ∧
  (zone 3).freq0 = 0

/-- One table of the examples of the specification: trip 40, 50, 60 and reset 35,
45, 55, with zone 3 unconfigured. -/
def example_zones : Nat → thermal_zone :=
  zones_of [⟨600, 900, 40, 35⟩, ⟨500, 800, 50, 45⟩, ⟨400, 700, 60, 55⟩]

/-- A policy over `example_zones` in a given state. -/
def example_policy (active : Bool) (curr : Int) : thermal_policy :=
  { conf := { enabled := true, sampling_ms := 3000 },
    zone := example_zones, throttle_active := active, curr_zone := curr }

/-! ## Lemmas on the frequency table -/

theorem next_valid_length (l : List Nat) :
    (cpufreq_next_valid l).2.length ≤ l.length := by
  induction l with
  | nil => simp [cpufreq_next_valid]
  | cons x xs ih =>
    unfold cpufreq_next_valid
    split_ifs
    · simp
    · simp
    · exact Nat.le_succ_of_le ih

theorem next_valid_of_steps_nil (l : List Nat) (h : valid_steps l = []) :
    (cpufreq_next_valid l).1 = false := by
  induction l with
  | nil => simp [cpufreq_next_valid]
  | cons x xs ih =>
    unfold valid_steps at h
    unfold cpufreq_next_valid
    by_cases h1 : x = CPUFREQ_TABLE_END
    · rw [if_pos h1]
    · rw [if_neg h1] at h ⊢
      by_cases h2 : x ≠ CPUFREQ_ENTRY_INVALID
      · rw [if_pos h2] at h
        exact absurd h (by simp)
      · rw [if_neg h2] at h ⊢
        exact ih h

theorem next_valid_of_steps_cons (l : List Nat) (x : Nat) (s : List Nat)
    (h : valid_steps l = x :: s) :
    ∃ rest, cpufreq_next_valid l = (true, x :: rest) ∧ valid_steps rest = s ∧
      rest.length < l.length := by
  induction l with
  | nil => simp [valid_steps] at h
  | cons y ys ih =>
    unfold valid_steps at h
    unfold cpufreq_next_valid
    by_cases h1 : y = CPUFREQ_TABLE_END
    · rw [if_pos h1] at h
      exact absurd h (by simp)
    · rw [if_neg h1] at h ⊢
      by_cases h2 : y ≠ CPUFREQ_ENTRY_INVALID
      · rw [if_pos h2] at h ⊢
        simp only [List.cons.injEq] at h
        obtain ⟨rfl, rfl⟩ := h
        exact ⟨ys, rfl, rfl, by simp⟩
      · rw [if_neg h2] at h ⊢
        obtain ⟨rest, e, hs, hl⟩ := ih h
        exact ⟨rest, e, hs, by simp only [List.length_cons]; omega⟩

/-- The loop of `validate_cpu_freq` returns within its budget on every table. -/
theorem validate_loop_total (f : Nat) :
    ∀ (fuel : Nat) (pos : List Nat), pos.length < fuel →
      ∃ r, validate_loop fuel pos f = some r := by
  intro fuel
  induction fuel with
  | zero => intro pos h; omega
  | succ n ih =>
    intro pos h
    unfold validate_loop
    by_cases h1 : f = frequency pos
    · exact ⟨_, if_pos h1⟩
    · rw [if_neg h1]
      simp only []
      by_cases h2 : (cpufreq_next_valid pos.tail).1 = true
      · have hlen := next_valid_length pos.tail
        cases pos with
        | nil => simp [cpufreq_next_valid] at h2
        | cons x xs =>
          simp only [List.tail_cons, List.length_cons] at hlen h h2 ⊢
          simp only [h2, Bool.not_true, Bool.false_eq_true, if_false]
          split_ifs
          · exact ⟨_, rfl⟩
          · exact ih _ (by omega)
      · simp only [Bool.not_eq_true] at h2
        simp [h2]

/-- The function `validate_cpu_freq` returns on every table and request. -/
theorem validate_cpu_freq_total (tbl : List Nat) (f : Nat) :
    ∃ r, validate_cpu_freq tbl f = some r := by
  unfold validate_cpu_freq
  simp only []
  split_ifs
  · exact ⟨_, rfl⟩
  · exact validate_loop_total f _ _ (Nat.lt_succ_of_le (next_valid_length tbl))

theorem snap_skip (x : Nat) (y : Nat) (s : List Nat) (f : Nat) (h : x < f) :
    snap_at_or_above (x :: y :: s) f = snap_at_or_above (y :: s) f := by
  have hx : ¬ f ≤ x := by omega
  unfold snap_at_or_above
  rw [List.find?_cons_of_neg _ (by simpa using hx)]
  cases hfind : List.find? (fun s => decide (f ≤ s)) (y :: s) with
  | some r => rfl
  | none => simp [List.getLastD]

/-- The loop of `validate_cpu_freq`, entered at a step `x` at or below the
request, returns the snapped value and whether it differs from the request. -/
theorem validate_loop_snap (f : Nat) :
    ∀ (fuel : Nat) (x : Nat) (rest : List Nat), rest.length < fuel → x ≤ f →
      validate_loop fuel (x :: rest) f =
        some (decide (snap_at_or_above (x :: valid_steps rest) f ≠ f),
              snap_at_or_above (x :: valid_steps rest) f) := by
  intro fuel
  induction fuel with
  | zero => intro x rest h; omega
  | succ n ih =>
    intro x rest hlen hx
    unfold validate_loop
    by_cases h1 : f = x
    · subst h1
      simp [frequency, snap_at_or_above]
    · have hlt : x < f := by omega
      have hnle : ¬ f ≤ x := by omega
      simp only [frequency, List.headD_cons, if_neg h1, List.tail_cons]
      cases hs : valid_steps rest with
      | nil =>
        rw [next_valid_of_steps_nil rest hs]
        have : snap_at_or_above [x] f = x := by
          simp [snap_at_or_above, hnle, List.getLastD]
        simp [this]
        omega
      | cons y s =>
        obtain ⟨rest1, e, hs1, hl1⟩ := next_valid_of_steps_cons rest y s hs
        rw [e]
        simp only [Bool.not_true, Bool.false_eq_true, if_false, List.headD_cons]
        rw [snap_skip x y s f hlt]
        by_cases h2 : f < y
        · have : snap_at_or_above (y :: s) f = y := by
            simp [snap_at_or_above, Nat.le_of_lt h2]
          rw [if_pos ⟨hlt, h2⟩, this]
          simp
          omega
        · rw [if_neg (fun h => h2 h.2)]
          rw [ih y rest1 (by omega) (by omega), hs1]

/-- On a table with at least one valid step `validate_cpu_freq` returns the
snapped value of the specification, and `true` exactly when it differs from the
request. -/
theorem validate_cpu_freq_eq_snap (tbl : List Nat) (f : Nat)
    (h : valid_steps tbl ≠ []) :
    validate_cpu_freq tbl f =
      some (decide (snap_at_or_above (valid_steps tbl) f ≠ f),
            snap_at_or_above (valid_steps tbl) f) := by
  cases hs : valid_steps tbl with
  | nil => exact absurd hs h
  | cons x s =>
    obtain ⟨rest, e, hs1, hl⟩ := next_valid_of_steps_cons tbl x s hs
    unfold validate_cpu_freq
    simp only [e, frequency, List.headD_cons]
    by_cases h1 : f < x
    · have : snap_at_or_above (x :: s) f = x := by
        simp [snap_at_or_above, Nat.le_of_lt h1]
      rw [if_pos h1, this]
      simp
      omega
    · rw [if_neg h1, validate_loop_snap f _ x rest (by omega) (by omega), hs1]

theorem snap_of_le_head (x : Nat) (s : List Nat) (f : Nat) (h : f ≤ x) :
    snap_at_or_above (x :: s) f = x := by
  simp [snap_at_or_above, h]

/-- When some step is at or above the request, the snapped value is the least
such step of an ascending sequence. -/
theorem snap_spec_exists (f : Nat) :
    ∀ l : List Nat, l.Pairwise (· < ·) → (∃ s ∈ l, f ≤ s) →
      snap_at_or_above l f ∈ l ∧ f ≤ snap_at_or_above l f ∧
        ∀ s ∈ l, f ≤ s → snap_at_or_above l f ≤ s := by
  intro l
  induction l with
  | nil => intro _ h; simp at h
  | cons x xs ih =>
    intro hp hex
    rw [List.pairwise_cons] at hp
    by_cases hx : f ≤ x
    · rw [snap_of_le_head x xs f hx]
      refine ⟨List.mem_cons_self _ _, hx, ?_⟩
      intro s hs _
      rcases List.mem_cons.mp hs with rfl | hs
      · exact le_rfl
      · exact Nat.le_of_lt (hp.1 s hs)
    · have hlt : x < f := by omega
      obtain ⟨s0, hs0, hle0⟩ := hex
      have hs0xs : s0 ∈ xs := by
        rcases List.mem_cons.mp hs0 with rfl | h
        · omega
        · exact h
      cases xs with
      | nil => simp at hs0xs
      | cons y ys =>
        rw [snap_skip x y ys f hlt]
        obtain ⟨h1, h2, h3⟩ := ih hp.2 ⟨s0, hs0xs, hle0⟩
        refine ⟨List.mem_cons_of_mem _ h1, h2, ?_⟩
        intro s hs hfs
        rcases List.mem_cons.mp hs with rfl | hs
        · omega
        · exact h3 s hs hfs

/-- When every step is below the request, the snapped value is the last step. -/
theorem snap_spec_above (f : Nat) :
    ∀ (l : List Nat) (hne : l ≠ []), (∀ s ∈ l, s < f) →
      snap_at_or_above l f = l.getLast hne := by
  intro l
  induction l with
  | nil => intro hne; exact absurd rfl hne
  | cons x xs ih =>
    intro hne hall
    have hx : x < f := hall x (List.mem_cons_self _ _)
    cases xs with
    | nil =>
      have hnle : ¬ f ≤ x := by omega
      simp [snap_at_or_above, List.getLastD, hnle]
    | cons y ys =>
      rw [snap_skip x y ys f hx, ih (by simp) (fun s hs => hall s (List.mem_cons_of_mem _ hs))]
      simp

theorem le_getLast_of_pairwise :
    ∀ (l : List Nat) (hne : l ≠ []), l.Pairwise (· < ·) → ∀ s ∈ l, s ≤ l.getLast hne := by
  intro l
  induction l with
  | nil => intro hne; exact absurd rfl hne
  | cons x xs ih =>
    intro hne hp s hs
    rw [List.pairwise_cons] at hp
    cases xs with
    | nil => simp at hs; simp [hs]
    | cons y ys =>
      have hlast : (x :: y :: ys).getLast hne = (y :: ys).getLast (by simp) := by simp
      rw [hlast]
      rcases List.mem_cons.mp hs with rfl | hs
      · have h1 := hp.1 _ (List.getLast_mem (l := y :: ys) (by simp))
        exact Nat.le_of_lt h1
      · exact ih (by simp) hp.2 s hs

theorem head_le_of_pairwise (l : List Nat) (hne : l ≠ []) (hp : l.Pairwise (· < ·)) :
    ∀ s ∈ l, l.head hne ≤ s := by
  cases l with
  | nil => exact absurd rfl hne
  | cons x xs =>
    intro s hs
    rw [List.pairwise_cons] at hp
    rcases List.mem_cons.mp hs with rfl | hs
    · simp
    · simpa using Nat.le_of_lt (hp.1 s hs)

/-- The contract of `snap_at_or_above` on a non-empty ascending sequence, case
by case. -/
theorem snap_contract (l : List Nat) (f : Nat) (hne : l ≠ [])
    (hp : l.Pairwise (· < ·)) :
    (f < l.head hne → snap_at_or_above l f = l.head hne) ∧
    (f ∈ l → snap_at_or_above l f = f) ∧
    (l.getLast hne < f → snap_at_or_above l f = l.getLast hne) ∧
    (l.head hne ≤ f → f ≤ l.getLast hne → f ∉ l →
      snap_at_or_above l f ∈ l ∧ f < snap_at_or_above l f ∧
        ∀ s ∈ l, f < s → snap_at_or_above l f ≤ s) ∧
    snap_at_or_above l f ∈ l := by
  refine ⟨?_, ?_, ?_, ?_, ?_⟩
  · intro h
    cases l with
    | nil => exact absurd rfl hne
    | cons x xs => simpa using snap_of_le_head x xs f (by simpa using Nat.le_of_lt h)
  · intro h
    obtain ⟨_, h2, h3⟩ := snap_spec_exists f l hp ⟨f, h, le_rfl⟩
    exact Nat.le_antisymm (h3 f h le_rfl) h2
  · intro h
    exact snap_spec_above f l hne
      (fun s hs => Nat.lt_of_le_of_lt (le_getLast_of_pairwise l hne hp s hs) h)
  · intro _ hlast hnot
    obtain ⟨h1, h2, h3⟩ :=
      snap_spec_exists f l hp ⟨l.getLast hne, List.getLast_mem hne, hlast⟩
    refine ⟨h1, ?_, fun s hs hfs => h3 s hs (Nat.le_of_lt hfs)⟩
    rcases Nat.lt_or_eq_of_le h2 with h | h
    · exact h
    · exact absurd (h ▸ h1) hnot
  · by_cases h : ∃ s ∈ l, f ≤ s
    · exact (snap_spec_exists f l hp h).1
    · rw [snap_spec_above f l hne (fun s hs => by
        by_contra hc
        exact h ⟨s, hs, by omega⟩)]
      exact List.getLast_mem hne

/-! ## Frequency snapping (claim C1) -/

/-- C1: on every frequency table whose valid steps form a non-empty strictly
ascending sequence, and for every requested frequency `f`, `validate_cpu_freq`
returns and leaves in `*freq`: the lowest step if `f` is below it; `f` itself if
`f` is a step; the highest step if `f` is above it; otherwise the smallest step
strictly greater than `f`. -/
theorem validate_cpu_freq_contract (tbl : List Nat) (f : Nat)
    (hne : valid_steps tbl ≠ [])
    (hasc : (valid_steps tbl).Pairwise (· < ·)) :
    ∃ b r, validate_cpu_freq tbl f = some (b, r) ∧
      (f < (valid_steps tbl).head hne → r = (valid_steps tbl).head hne) ∧
      (f ∈ valid_steps tbl → r = f) ∧
      ((valid_steps tbl).getLast hne < f → r = (valid_steps tbl).getLast hne) ∧
      ((valid_steps tbl).head hne ≤ f → f ≤ (valid_steps tbl).getLast hne →
        f ∉ valid_steps tbl →
          r ∈ valid_steps tbl ∧ f < r ∧ ∀ s ∈ valid_steps tbl, f < s → r ≤ s) := by
  obtain ⟨h1, h2, h3, h4, _⟩ := snap_contract (valid_steps tbl) f hne hasc
  exact ⟨_, _, validate_cpu_freq_eq_snap tbl f hne, h1, h2, h3, h4⟩

/-- The table 600, 900, 1200, 1500 of the specification has ascending valid
steps, and the contract of C1 forces the request 1000 to end at 1200. -/
theorem validate_cpu_freq_contract_witness :
    valid_steps [600, 900, 1200, 1500] ≠ [] ∧
    (valid_steps [600, 900, 1200, 1500]).Pairwise (· < ·) ∧
    ∃ b, validate_cpu_freq [600, 900, 1200, 1500] 1000 = some (b, 1200) := by
  have hne : valid_steps [600, 900, 1200, 1500] ≠ [] := by decide
  have hasc : (valid_steps [600, 900, 1200, 1500]).Pairwise (· < ·) := by decide
  refine ⟨hne, hasc, ?_⟩
  obtain ⟨b, r, h, _, _, _, h4⟩ :=
    validate_cpu_freq_contract [600, 900, 1200, 1500] 1000 hne hasc
  obtain ⟨hmem, hlt, hmin⟩ := h4
    (by simp [valid_steps, CPUFREQ_TABLE_END, CPUFREQ_ENTRY_INVALID])
    (by simp [valid_steps, CPUFREQ_TABLE_END, CPUFREQ_ENTRY_INVALID])
    (by decide)
  have hle : r ≤ 1200 := hmin 1200 (by decide) (by decide)
  have hr : r = 1200 := by
    have hv : valid_steps [600, 900, 1200, 1500] = [600, 900, 1200, 1500] := by decide
    rw [hv] at hmem
    simp only [List.mem_cons, List.mem_singleton, List.not_mem_nil, or_false] at hmem
    omega
  exact ⟨b, hr ▸ h⟩

/-- The four examples of the specification, with a terminated table and with an
invalid entry in between. -/
theorem validate_cpu_freq_examples :
    validate_cpu_freq [600, 900, 1200, 1500, CPUFREQ_TABLE_END] 1000 = some (true, 1200) ∧
    validate_cpu_freq [600, 900, 1200, 1500, CPUFREQ_TABLE_END] 50 = some (true, 600) ∧
    validate_cpu_freq [600, 900, 1200, 1500, CPUFREQ_TABLE_END] 1500 = some (false, 1500) ∧
    validate_cpu_freq [600, 900, 1200, 1500, CPUFREQ_TABLE_END] 2000 = some (true, 1500) ∧
    validate_cpu_freq [600, CPUFREQ_ENTRY_INVALID, 900, CPUFREQ_TABLE_END] 700 =
      some (true, 900) := by
  decide

/-! ## Zone classification (claims C2 to C5) -/

theorem msm_thermal_main_curr_zone (t : thermal_policy) (temp : Int) :
    (msm_thermal_main t (some temp)).t.curr_zone =
      (zone_loop t temp NR_THERMAL_ZONES 0).curr_zone := by
  simp only [msm_thermal_main]
  split_ifs <;> rfl

/-- One iteration that ends in neither `break`: the zone is configured, is not
the last one, the temperature is above its reset and not below the next trip. -/
theorem zone_loop_advance (t : thermal_policy) (temp : Int) (m j : Nat)
    (hc : (t.zone j).freq0 ≠ 0) (hj : j ≠ NR_THERMAL_ZONES - 1)
    (hr : (t.zone j).reset_degC < temp)
    (hn : (t.zone (j + 1)).trip_degC ≤ temp)
    (h0 : j = 0 → t.curr_zone = UNTHROTTLE_ZONE → (t.zone 0).trip_degC ≤ temp) :
    zone_loop t temp (m + 1) j = zone_loop t temp m (j + 1) := by
  have h1 : ¬ (temp < (t.zone (j + 1)).trip_degC ∧
      (temp ≥ (t.zone j).trip_degC ∨ t.curr_zone ≠ UNTHROTTLE_ZONE)) :=
    fun h => absurd h.1 (not_lt.mpr hn)
  have h2 : ¬ (j = 0 ∧ t.curr_zone = UNTHROTTLE_ZONE ∧ temp < (t.zone 0).trip_degC) :=
    fun h => absurd h.2.2 (not_lt.mpr (h0 h.1 h.2.1))
  rw [zone_loop, if_neg hc, if_neg hj, if_pos (show temp > (t.zone j).reset_degC from hr),
    if_neg h1, if_neg h2]

/-- At or below the reset temperature of zone 0 the loop ends in its first
iteration with `UNTHROTTLE_ZONE`, whether zone 0 is configured or not. -/
theorem zone_loop_at_or_below_reset (t : thermal_policy) (temp : Int)
    (h : temp ≤ (t.zone 0).reset_degC) :
    (zone_loop t temp NR_THERMAL_ZONES 0).curr_zone = UNTHROTTLE_ZONE := by
  have hr : ¬ temp > (t.zone 0).reset_degC := not_lt.mpr h
  show (zone_loop t temp (15 + 1) 0).curr_zone = UNTHROTTLE_ZONE
  rw [zone_loop]
  by_cases hc : (t.zone 0).freq0 = 0
  · rw [if_pos hc]
    rfl
  · rw [if_neg hc, if_neg (by decide), if_neg hr, if_pos rfl]

/-- C2: for every zone table, every previous zone and every temperature at or
below `zone[0].reset_degC`, the tick sets `curr_zone` to `UNTHROTTLE_ZONE`. -/
theorem cool_down_escape (t : thermal_policy) (temp : Int)
    (h : temp ≤ (t.zone 0).reset_degC) :
    (msm_thermal_main t (some temp)).t.curr_zone = UNTHROTTLE_ZONE := by
  rw [msm_thermal_main_curr_zone]
  exact zone_loop_at_or_below_reset t temp h

/-- From zone 0 of the example table (reset 35) the temperature 34 leads to
`UNTHROTTLE_ZONE`. -/
theorem cool_down_escape_witness :
    (34 : Int) ≤ ((example_policy true 0).zone 0).reset_degC ∧
    (msm_thermal_main (example_policy true 0) (some 34)).t.curr_zone = UNTHROTTLE_ZONE :=
  ⟨by decide, cool_down_escape (example_policy true 0) 34 (by decide)⟩

/-- At the trip temperature of a configured zone `i` the loop passes every
zone below `i` without a `break`. -/
theorem zone_loop_reach (t : thermal_policy) (n i : Nat)
    (hw : well_formed t.zone n) (hi : i < n) :
    ∀ k, k ≤ i →
      zone_loop t (t.zone i).trip_degC NR_THERMAL_ZONES 0 =
        zone_loop t (t.zone i).trip_degC (NR_THERMAL_ZONES - k) k := by
  obtain ⟨_, hn16, hconf, _, htrip, hreset⟩ := hw
  have h16 : NR_THERMAL_ZONES = 16 := rfl
  intro k
  induction k with
  | zero => intro _; rfl
  | succ k ih =>
    intro hk
    have hki : k < i := hk
    rw [ih (Nat.le_of_lt hki)]
    have hm : NR_THERMAL_ZONES - k = (NR_THERMAL_ZONES - (k + 1)) + 1 := by omega
    rw [hm]
    apply zone_loop_advance
    · exact hconf k (by omega)
    · omega
    · exact lt_trans (hreset k (by omega)) (htrip i hi k hki)
    · rcases Nat.lt_or_ge (k + 1) i with h | h
      · exact le_of_lt (htrip i hi (k + 1) h)
      · have : k + 1 = i := by omega
        rw [this]
    · intro hk0 _
      rw [← hk0]
      exact le_of_lt (htrip i hi k hki)

/-- C4: on every well-formed zone table (zones `0 .. n-1` configured with
`1 ≤ n ≤ 16`, trips strictly increasing, every reset below its trip), for every
configured index `i` and every previous zone, a temperature equal to
`zone[i].trip_degC` is classified as zone `i`. -/
theorem trip_boundary_is_higher_zone (t : thermal_policy) (n i : Nat)
    (hw : well_formed t.zone n) (hi : i < n) :
    (msm_thermal_main t (some (t.zone i).trip_degC)).t.curr_zone = (i : Int) := by
  rw [msm_thermal_main_curr_zone, zone_loop_reach t n i hw hi i le_rfl]
  obtain ⟨_, hn16, hconf, hlast, htrip, hreset⟩ := hw
  have h16 : NR_THERMAL_ZONES = 16 := rfl
  have hm : NR_THERMAL_ZONES - i = (NR_THERMAL_ZONES - 1 - i) + 1 := by omega
  rw [hm, zone_loop, if_neg (hconf i hi)]
  by_cases h15 : i = NR_THERMAL_ZONES - 1
  · rw [if_pos h15]
  · rw [if_neg h15,
      if_pos (show (t.zone i).trip_degC > (t.zone i).reset_degC from hreset i hi)]
    by_cases hnext : (t.zone i).trip_degC < (t.zone (i + 1)).trip_degC
    · rw [if_pos ⟨hnext, Or.inl (le_refl _)⟩]
    · have h1 : ¬ ((t.zone i).trip_degC < (t.zone (i + 1)).trip_degC ∧
          ((t.zone i).trip_degC ≥ (t.zone i).trip_degC ∨
            t.curr_zone ≠ UNTHROTTLE_ZONE)) := fun h => hnext h.1
      have h2 : ¬ (i = 0 ∧ t.curr_zone = UNTHROTTLE_ZONE ∧
          (t.zone i).trip_degC < (t.zone 0).trip_degC) := by
        rintro ⟨rfl, _, h⟩
        exact lt_irrefl _ h
      rw [if_neg h1, if_neg h2]
      have hin : i + 1 = n := by
        by_contra hne
        exact hnext (htrip (i + 1) (by omega) i (Nat.lt_succ_self i))
      have hm2 : NR_THERMAL_ZONES - 1 - i = (NR_THERMAL_ZONES - 2 - i) + 1 := by omega
      have hz : (t.zone (i + 1)).freq0 = 0 := by
        rw [hin]
        exact hlast (by omega)
      rw [hm2, zone_loop, if_pos hz]
      show ((i + 1 : Nat) : Int) - 1 = (i : Int)
      push_cast
      ring

theorem example_zones_well_formed : well_formed example_zones 3 := by
  unfold well_formed
  decide

/-- On the example table (trip 40, 50, 60), from `UNTHROTTLE_ZONE`, the
temperature 40 is classified as zone 0. -/
theorem trip_boundary_is_higher_zone_witness :
    well_formed (example_policy false UNTHROTTLE_ZONE).zone 3 ∧ 0 < 3 ∧
    ((example_policy false UNTHROTTLE_ZONE).zone 0).trip_degC = 40 ∧
    (msm_thermal_main (example_policy false UNTHROTTLE_ZONE)
      (some ((example_policy false UNTHROTTLE_ZONE).zone 0).trip_degC)).t.curr_zone =
        ((0 : Nat) : Int) :=
  ⟨example_zones_well_formed, by decide, by decide,
    trip_boundary_is_higher_zone (example_policy false UNTHROTTLE_ZONE) 3 0
      example_zones_well_formed (by decide)⟩

theorem example_zones_spec : spec_example_table example_zones := by
  unfold spec_example_table
  decide

/-- The first iteration of the loop on a table of the specification examples,
for a temperature above the reset 35 of zone 0. -/
theorem zone_loop_example_first (t : thermal_policy) (temp : Int)
    (hz : spec_example_table t.zone) (hr : 35 < temp) :
    zone_loop t temp NR_THERMAL_ZONES 0 =
      if temp < 50 ∧ (temp ≥ 40 ∨ t.curr_zone ≠ UNTHROTTLE_ZONE) then
        { t with curr_zone := ((0 : Nat) : Int) }
      else if t.curr_zone = UNTHROTTLE_ZONE ∧ temp < 40 then t
      else zone_loop t temp 15 1 := by
  obtain ⟨⟨hc0, ht0, hr0⟩, ⟨_, ht1, _⟩, _, _⟩ := hz
  show zone_loop t temp (15 + 1) 0 = _
  rw [zone_loop, if_neg hc0, if_neg (by decide), hr0, ht0, ht1,
    if_pos (show temp > 35 from hr)]
  simp

/-- C3, as the code has it: with the three zones trip 40, 50, 60 and reset 35,
45, 55, from previous zone 1 (and from every other previous zone) the
temperature 46 is classified as zone 0; the controller is throttled afterwards
and does not drop to `UNTHROTTLE_ZONE`. -/
theorem band_above_reset_yields_zone0 (t : thermal_policy)
    (hz : spec_example_table t.zone) :
    (msm_thermal_main t (some 46)).t.curr_zone = 0 ∧
    (msm_thermal_main t (some 46)).t.curr_zone ≠ UNTHROTTLE_ZONE ∧
    (msm_thermal_main t (some 46)).t.throttle_active = true := by
  have hloop : zone_loop t 46 NR_THERMAL_ZONES 0 = { t with curr_zone := 0 } := by
    rw [zone_loop_example_first t 46 hz (by decide), if_pos ⟨by decide, Or.inl (by decide)⟩]
    rfl
  simp [msm_thermal_main, hloop, UNTHROTTLE_ZONE]

/-- The example policy in zone 1, throttled, is such a state. -/
theorem band_above_reset_yields_zone0_witness :
    spec_example_table (example_policy true 1).zone ∧
    (example_policy true 1).curr_zone = 1 ∧
    (msm_thermal_main (example_policy true 1) (some 46)).t.curr_zone = 0 :=
  ⟨example_zones_spec, rfl,
    (band_above_reset_yields_zone0 (example_policy true 1) example_zones_spec).1⟩

/-- C3 as stated fails: from zone 1 the temperature 46 does not leave the
controller in zone 1. -/
theorem band_above_reset_not_zone1 :
    (msm_thermal_main (example_policy true 1) (some 46)).t.curr_zone ≠ 1 := by
  decide

/-- C5, as the code has it: with the three zones trip 40, 50, 60 and reset 35,
45, 55, from `UNTHROTTLE_ZONE` the temperature 42 (at or above the trip 40 of
zone 0) is classified as zone 0, and every temperature below the trip 40 is
classified as `UNTHROTTLE_ZONE`. -/
theorem unthrottled_below_first_trip (t : thermal_policy)
    (hz : spec_example_table t.zone) (hp : t.curr_zone = UNTHROTTLE_ZONE) :
    (msm_thermal_main t (some 42)).t.curr_zone = 0 ∧
    ∀ temp : Int, temp < 40 →
      (msm_thermal_main t (some temp)).t.curr_zone = UNTHROTTLE_ZONE := by
  constructor
  · rw [msm_thermal_main_curr_zone, zone_loop_example_first t 42 hz (by decide),
      if_pos ⟨by decide, Or.inl (by decide)⟩]
    rfl
  · intro temp htemp
    rcases le_or_lt temp 35 with h | h
    · rw [msm_thermal_main_curr_zone]
      exact zone_loop_at_or_below_reset t temp (by rw [hz.1.2.2]; exact h)
    · have h1 : ¬ (temp < 50 ∧ (temp ≥ 40 ∨ t.curr_zone ≠ UNTHROTTLE_ZONE)) := by
        rintro ⟨_, h2 | h2⟩
        · exact absurd htemp (not_lt.mpr h2)
        · exact h2 hp
      rw [msm_thermal_main_curr_zone, zone_loop_example_first t temp hz h, if_neg h1,
        if_pos ⟨hp, htemp⟩, hp]

/-- The example policy, unthrottled, is such a state. -/
theorem unthrottled_below_first_trip_witness :
    spec_example_table (example_policy false UNTHROTTLE_ZONE).zone ∧
    (example_policy false UNTHROTTLE_ZONE).curr_zone = UNTHROTTLE_ZONE ∧
    (msm_thermal_main (example_policy false UNTHROTTLE_ZONE) (some 42)).t.curr_zone = 0 ∧
    (msm_thermal_main (example_policy false UNTHROTTLE_ZONE) (some 39)).t.curr_zone =
      UNTHROTTLE_ZONE :=
  ⟨example_zones_spec, rfl,
    (unthrottled_below_first_trip (example_policy false UNTHROTTLE_ZONE)
      example_zones_spec rfl).1,
    (unthrottled_below_first_trip (example_policy false UNTHROTTLE_ZONE)
      example_zones_spec rfl).2 39 (by decide)⟩

/-- C5 as stated fails: from `UNTHROTTLE_ZONE` the temperature 42 does not
leave the controller in `UNTHROTTLE_ZONE`. -/
theorem unthrottled_at_42_fails :
    (msm_thermal_main (example_policy false UNTHROTTLE_ZONE) (some 42)).t.curr_zone ≠
      UNTHROTTLE_ZONE := by
  decide

/-! ## The clamp (claims C6 to C8) -/

theorem LITTLE_CPU_MASK_eq : LITTLE_CPU_MASK = 2 ^ 2 - 1 := by decide

/-- The mask test of `get_throttle_freq` selects index 0 exactly for the cpus 0
and 1, among the cpus below 32 for which the shift is defined. -/
theorem little_cpu_iff (cpu : Nat) (hcpu : cpu < 32) :
    CPU_MASK cpu &&& LITTLE_CPU_MASK ≠ 0 ↔ (cpu = 0 ∨ cpu = 1) := by
  rw [LITTLE_CPU_MASK_eq, Nat.and_pow_two_sub_one_eq_mod]
  unfold CPU_MASK
  rw [Nat.mod_eq_of_lt hcpu, Nat.one_shiftLeft]
  constructor
  · intro h
    by_contra hc
    have h2 : 2 ≤ cpu := by omega
    exact h (Nat.mod_eq_zero_of_dvd (pow_dvd_pow 2 h2))
  · rintro (rfl | rfl) <;> decide

/-- Outside that range, where C leaves the shift undefined, the model follows
the compiled code and the shift count wraps: the cpus 32 and 33 test as
LITTLE. -/
theorem cpu_mask_wraps :
    CPU_MASK 32 &&& LITTLE_CPU_MASK ≠ 0 ∧ CPU_MASK 33 &&& LITTLE_CPU_MASK ≠ 0 := by
  decide

theorem get_throttle_freq_eq (t : thermal_policy) (z : Nat) (cpu : Nat)
    (hcpu : cpu < 32) :
    get_throttle_freq t (z : Int) cpu =
      if cpu = 0 ∨ cpu = 1 then (t.zone z).freq0 else (t.zone z).freq1 := by
  unfold get_throttle_freq
  simp only [Int.toNat_ofNat]
  by_cases h : cpu = 0 ∨ cpu = 1
  · rw [if_pos ((little_cpu_iff cpu hcpu).mpr h), if_pos h]
  · rw [if_neg (fun hc => h ((little_cpu_iff cpu hcpu).mp hc)), if_neg h]

/-- The loop of the tick never writes `throttle_active`. -/
theorem zone_loop_throttle_active (t : thermal_policy) (temp : Int) :
    ∀ (n i : Nat), (zone_loop t temp n i).throttle_active = t.throttle_active := by
  intro n
  induction n with
  | zero => intro i; rfl
  | succ n ih =>
    intro i
    rw [zone_loop]
    split_ifs <;> first | rfl | exact ih _

/-- C6 (two-phase clear): on every state with `throttle_active = true`, a tick
with any sensor outcome leaves `throttle_active` true, also when it sets
`curr_zone` to `UNTHROTTLE_ZONE`; and if `curr_zone` is `UNTHROTTLE_ZONE`, a
clamp (`do_cpu_throttle` with `CPUFREQ_ADJUST`) sets `policy.max` to
`user_policy.max` and `throttle_active` to false. -/
theorem two_phase_clear (t : thermal_policy) (adc : Option Int)
    (policy : cpufreq_policy) (ha : t.throttle_active = true) :
    (msm_thermal_main t adc).t.throttle_active = true ∧
    (t.curr_zone = UNTHROTTLE_ZONE →
      ∃ t1 p1, do_cpu_throttle t CPUFREQ_ADJUST policy = some (t1, p1) ∧
        p1.max = policy.user_policy_max ∧ t1.throttle_active = false) := by
  constructor
  · cases adc with
    | none => exact ha
    | some temp =>
      simp only [msm_thermal_main]
      split_ifs
      · rfl
      · rw [zone_loop_throttle_active]
        exact ha
  · intro hz
    unfold do_cpu_throttle
    simp only [ha, hz, ne_eq, not_true_eq_false, if_false, Bool.not_true,
      Bool.false_eq_true, if_true]
    split_ifs <;> exact ⟨_, _, rfl, rfl, rfl⟩

/-- From zone 0 of the example table the temperature 34 sets `curr_zone` to
`UNTHROTTLE_ZONE` and leaves `throttle_active` true; the clamp that follows
restores `user_policy.max` and clears `throttle_active`. -/
theorem two_phase_clear_witness :
    (example_policy true 0).throttle_active = true ∧
    (msm_thermal_main (example_policy true 0) (some 34)).t.curr_zone = UNTHROTTLE_ZONE ∧
    (msm_thermal_main (example_policy true 0) (some 34)).t.throttle_active = true ∧
    ∃ t1 p1,
      do_cpu_throttle (msm_thermal_main (example_policy true 0) (some 34)).t
        CPUFREQ_ADJUST ⟨0, 600, 900, 1500, [600, 900, 1200, 1500]⟩ = some (t1, p1) ∧
      p1.max = 1500 ∧ t1.throttle_active = false :=
  ⟨rfl, by decide,
    (two_phase_clear (example_policy true 0) (some 34)
      ⟨0, 600, 900, 1500, [600, 900, 1200, 1500]⟩ rfl).1,
    (two_phase_clear (msm_thermal_main (example_policy true 0) (some 34)).t none
      ⟨0, 600, 900, 1500, [600, 900, 1200, 1500]⟩ (by decide)).2 (by decide)⟩

/-- C8: on every state with `throttle_active = false`, whatever `curr_zone` and
the event are, `do_cpu_throttle` returns the proposed policy unmodified (also
one with `min > max`) and leaves the thermal policy as it is. -/
theorem clamp_inactive_is_identity (t : thermal_policy) (val : Nat)
    (policy : cpufreq_policy) (ha : t.throttle_active = false) :
    do_cpu_throttle t val policy = some (t, policy) := by
  unfold do_cpu_throttle
  simp [ha]

/-- An inactive state in zone 0 and a proposal with `min > max`. -/
theorem clamp_inactive_is_identity_witness :
    (example_policy false 0).throttle_active = false ∧
    do_cpu_throttle (example_policy false 0) CPUFREQ_ADJUST
        ⟨2, 1500, 900, 1500, [600, 900, 1200, 1500]⟩ =
      some (example_policy false 0, ⟨2, 1500, 900, 1500, [600, 900, 1200, 1500]⟩) :=
  ⟨rfl, clamp_inactive_is_identity (example_policy false 0) CPUFREQ_ADJUST
    ⟨2, 1500, 900, 1500, [600, 900, 1200, 1500]⟩ rfl⟩

/-- C7: on every state with `throttle_active = true` and `curr_zone = z` in
`[0, 16)`, for every cpu below 32 (the cpus for which `1U << cpu` is defined)
and every frequency table, `do_cpu_throttle` returns
`max = min(policy.max, s)` and `min = min(policy.min, max)`, where `s` is what
`validate_cpu_freq` makes of `zone[z].freq[0]` for the cpus 0 and 1 and of
`zone[z].freq[1]` for every other cpu; hence the new `max` is at most
`policy.max` and the new `min` at most the new `max`. -/
theorem clamp_in_zone (t : thermal_policy) (policy : cpufreq_policy) (z : Nat)
    (ha : t.throttle_active = true) (hz : t.curr_zone = (z : Int))
    (_hz16 : z < NR_THERMAL_ZONES) (hcpu : policy.cpu < 32) :
    ∃ b s t1 p1,
      validate_cpu_freq policy.freq_table
        (if policy.cpu = 0 ∨ policy.cpu = 1 then (t.zone z).freq0
         else (t.zone z).freq1) = some (b, s) ∧
      do_cpu_throttle t CPUFREQ_ADJUST policy = some (t1, p1) ∧
      p1.max = min policy.max s ∧ p1.min = min policy.min p1.max ∧
      p1.max ≤ policy.max ∧ p1.min ≤ p1.max := by
  obtain ⟨⟨b, s⟩, hv⟩ := validate_cpu_freq_total policy.freq_table
    (if policy.cpu = 0 ∨ policy.cpu = 1 then (t.zone z).freq0 else (t.zone z).freq1)
  have hzu : ¬ ((z : Int) = UNTHROTTLE_ZONE) := by
    unfold UNTHROTTLE_ZONE
    omega
  have hd : do_cpu_throttle t CPUFREQ_ADJUST policy =
      some (if b = true then set_throttle_freq t (z : Int) policy.cpu s else t,
        if (if policy.max > s then { policy with max := s } else policy).min >
            (if policy.max > s then { policy with max := s } else policy).max then
          { (if policy.max > s then { policy with max := s } else policy) with
            min := (if policy.max > s then { policy with max := s } else policy).max }
        else (if policy.max > s then { policy with max := s } else policy)) := by
    unfold do_cpu_throttle
    simp only [ha, hz, ne_eq, not_true_eq_false, if_false, Bool.not_true,
      Bool.false_eq_true, if_neg hzu, get_throttle_freq_eq t z policy.cpu hcpu, hv]
  refine ⟨b, s, _, _, hv, hd, ?_⟩
  by_cases h1 : policy.max > s
  · by_cases h2 : policy.min > s
    · simp only [if_pos h1, if_pos h2]
      refine ⟨?_, ?_, ?_, ?_⟩ <;> omega
    · simp only [if_pos h1, if_neg h2]
      refine ⟨?_, ?_, ?_, ?_⟩ <;> omega
  · by_cases h2 : policy.min > policy.max
    · simp only [if_neg h1, if_pos h2]
      refine ⟨?_, ?_, ?_, ?_⟩ <;> omega
    · simp only [if_neg h1, if_neg h2]
      refine ⟨?_, ?_, ?_, ?_⟩ <;> omega

/-- In zone 1 of the example table (big frequency 800) a proposal for cpu 2
with `min = 600`, `max = 1500` over the table 600, 900, 1200, 1500 comes back
with `max = 900` and `min = 600`. -/
theorem clamp_in_zone_witness :
    (example_policy true 1).throttle_active = true ∧
    (example_policy true 1).curr_zone = ((1 : Nat) : Int) ∧ 1 < NR_THERMAL_ZONES ∧
    (cpufreq_policy.mk 2 600 1500 1500 [600, 900, 1200, 1500]).cpu < 32 ∧
    ∃ t1 p1,
      do_cpu_throttle (example_policy true 1) CPUFREQ_ADJUST
        ⟨2, 600, 1500, 1500, [600, 900, 1200, 1500]⟩ = some (t1, p1) ∧
      p1.max = 900 ∧ p1.min = 600 := by
  refine ⟨rfl, rfl, by decide, by decide, ?_⟩
  obtain ⟨b, s, t1, p1, hv, hd, hmax, hmin, _, _⟩ :=
    clamp_in_zone (example_policy true 1) ⟨2, 600, 1500, 1500, [600, 900, 1200, 1500]⟩ 1
      rfl rfl (by decide) (by decide)
  have hv2 : validate_cpu_freq
      (cpufreq_policy.mk 2 600 1500 1500 [600, 900, 1200, 1500]).freq_table
      (if (cpufreq_policy.mk 2 600 1500 1500 [600, 900, 1200, 1500]).cpu = 0 ∨
          (cpufreq_policy.mk 2 600 1500 1500 [600, 900, 1200, 1500]).cpu = 1
        then ((example_policy true 1).zone 1).freq0
        else ((example_policy true 1).zone 1).freq1) = some (true, 900) := by
    decide
  rw [hv2] at hv
  have hs : s = 900 := by
    simp only [Option.some.injEq, Prod.mk.injEq] at hv
    exact hv.2.symm
  subst hs
  have hmax2 : p1.max = 900 := by
    rw [hmax]
    decide
  refine ⟨t1, p1, hd, hmax2, ?_⟩
  rw [hmin, hmax2]
  decide

/-! ## The state invariant (claim C9) -/

/-- C9: the predicate "`curr_zone` other than `UNTHROTTLE_ZONE` implies
`throttle_active`" is preserved by every operation taken as one atomic step: a
tick with a successful or a failed sensor read, a clamp with any event and
proposal, a write to `enabled` (parsed or not), a write to `sampling_ms`, and a
write to a zone of the array. -/
theorem state_inv_preserved (t : thermal_policy) (hinv : state_inv t) :
    (∀ adc, state_inv (msm_thermal_main t adc).t) ∧
    (∀ val policy, ∃ t1 p1, do_cpu_throttle t val policy = some (t1, p1) ∧ state_inv t1) ∧
    (∀ data, state_inv (enabled_write t data).t) ∧
    (∀ data, state_inv (sampling_ms_write t data).t) ∧
    (∀ name buf, get_thermal_zone_number name < NR_THERMAL_ZONES →
      state_inv (thermal_zone_write t name buf).t) := by
  refine ⟨?_, ?_, ?_, ?_, ?_⟩
  · intro adc
    cases adc with
    | none => exact hinv
    | some temp =>
      simp only [msm_thermal_main]
      split_ifs with h
      · intro _; rfl
      · intro h2; exact absurd h2 h
  · intro val policy
    unfold do_cpu_throttle
    by_cases hval : val ≠ CPUFREQ_ADJUST
    · rw [if_pos hval]
      exact ⟨_, _, rfl, hinv⟩
    · rw [if_neg hval]
      by_cases ha : t.throttle_active = true
      · by_cases hz : t.curr_zone = UNTHROTTLE_ZONE
        · simp only [ha, hz, Bool.not_true, Bool.false_eq_true, if_false, if_true]
          exact ⟨_, _, rfl, fun h => absurd rfl h⟩
        · obtain ⟨⟨b, s⟩, hv⟩ := validate_cpu_freq_total policy.freq_table
            (get_throttle_freq t t.curr_zone policy.cpu)
          simp only [ha, Bool.not_true, Bool.false_eq_true, if_false, if_neg hz, hv]
          refine ⟨_, _, rfl, ?_⟩
          intro _
          cases b
          · exact ha
          · exact ha
      · simp only [Bool.not_eq_true] at ha
        simp only [ha, Bool.not_false, if_true]
        exact ⟨_, _, rfl, hinv⟩
  · intro data
    cases data with
    | none => exact hinv
    | some d =>
      simp only [enabled_write]
      split_ifs
      · exact hinv
      · intro h; exact absurd rfl h
  · intro data
    cases data with
    | none => exact hinv
    | some d => exact hinv
  · intro name buf _
    cases buf with
    | none => exact hinv
    | some v => exact hinv

/-- The example policy throttled in zone 1 satisfies the invariant; it still
holds after a tick at 34 degrees, which leaves the zone, and after a disable. -/
theorem state_inv_preserved_witness :
    state_inv (example_policy true 1) ∧
    state_inv (msm_thermal_main (example_policy true 1) (some 34)).t ∧
    state_inv (enabled_write (example_policy true 1) (some 0)).t :=
  ⟨fun _ => rfl,
    (state_inv_preserved (example_policy true 1) (fun _ => rfl)).1 (some 34),
    (state_inv_preserved (example_policy true 1) (fun _ => rfl)).2.2.1 (some 0)⟩

/-! ## Start-up (claim C10) -/

/-- C10, evaluated: the state that a successful `msm_thermal_probe` publishes
has `curr_zone = 0`, the index of zone 0, not `UNTHROTTLE_ZONE`, with
`throttle_active = false`; it violates the state invariant.  After the three
zones of the example are written and the controller is enabled, the first tick
at 37 degrees (below the trip 40 of zone 0) throttles to zone 0, where the same
tick from `UNTHROTTLE_ZONE` stays unthrottled; and the first tick at 42 degrees
enters zone 0 without a call of `update_online_cpu_policy`, since the zone
index did not change. -/
theorem startup_curr_zone_is_zone0 :
    ∃ t0, msm_thermal_probe true true 0 0 = Except.ok t0 ∧
      t0.curr_zone = 0 ∧ t0.curr_zone ≠ UNTHROTTLE_ZONE ∧
      t0.throttle_active = false ∧ ¬ state_inv t0 ∧
      ∃ t3,
        t3 = (enabled_write
          (thermal_zone_write
            (thermal_zone_write
              (thermal_zone_write t0 (some 0) (some (600, 900, 40, 35))).t
              (some 1) (some (500, 800, 50, 45))).t
            (some 2) (some (400, 700, 60, 55))).t (some 1)).t ∧
        (msm_thermal_main t3 (some 37)).t.curr_zone = 0 ∧
        (msm_thermal_main t3 (some 37)).t.throttle_active = true ∧
        (msm_thermal_main { t3 with curr_zone := UNTHROTTLE_ZONE } (some 37)).t.curr_zone =
          UNTHROTTLE_ZONE ∧
        (msm_thermal_main t3 (some 42)).t.curr_zone = 0 ∧
        (msm_thermal_main t3 (some 42)).update_policy = false ∧
        (msm_thermal_main { t3 with curr_zone := UNTHROTTLE_ZONE } (some 42)).update_policy =
          true := by
  refine ⟨_, rfl, rfl, by decide, rfl, ?_, _, rfl, ?_, ?_, ?_, ?_, ?_, ?_⟩
  · intro h
    exact Bool.noConfusion (h (by decide))
  all_goals decide

/-! ## The range of the classification (claim C11) -/

/-- The loop entered at index `i` with every zone below `i` configured ends
with `UNTHROTTLE_ZONE` or with an index below `NR_THERMAL_ZONES` up to which
every zone is configured. -/
theorem zone_loop_range (t : thermal_policy) (temp : Int) :
    ∀ (n i : Nat), i + n = NR_THERMAL_ZONES → 1 ≤ n →
      (∀ j, j < i → (t.zone j).freq0 ≠ 0) →
      (zone_loop t temp n i).curr_zone = UNTHROTTLE_ZONE ∨
      ∃ k, k < NR_THERMAL_ZONES ∧ (zone_loop t temp n i).curr_zone = (k : Int) ∧
        ∀ j, j ≤ k → (t.zone j).freq0 ≠ 0 := by
  have h16 : NR_THERMAL_ZONES = 16 := rfl
  intro n
  induction n with
  | zero => intro i _ h; omega
  | succ n ih =>
    intro i hin _ hconf
    have hrec : i ≠ NR_THERMAL_ZONES - 1 → (t.zone i).freq0 ≠ 0 →
        ((zone_loop t temp n (i + 1)).curr_zone = UNTHROTTLE_ZONE ∨
        ∃ k, k < NR_THERMAL_ZONES ∧ (zone_loop t temp n (i + 1)).curr_zone = (k : Int) ∧
          ∀ j, j ≤ k → (t.zone j).freq0 ≠ 0) := by
      intro h15 hc
      apply ih (i + 1) (by omega) (by omega)
      intro j hj
      rcases Nat.lt_or_eq_of_le (Nat.le_of_lt_succ hj) with h | h
      · exact hconf j h
      · rw [h]; exact hc
    have hhere : (t.zone i).freq0 ≠ 0 →
        ∃ k, k < NR_THERMAL_ZONES ∧ (i : Int) = (k : Int) ∧
          ∀ j, j ≤ k → (t.zone j).freq0 ≠ 0 := by
      intro hc
      refine ⟨i, by omega, rfl, ?_⟩
      intro j hj
      rcases Nat.lt_or_eq_of_le hj with h | h
      · exact hconf j h
      · rw [h]; exact hc
    rw [zone_loop]
    by_cases hc : (t.zone i).freq0 = 0
    · rw [if_pos hc]
      rcases Nat.eq_zero_or_pos i with h0 | h0
      · left
        subst h0
        rfl
      · right
        refine ⟨i - 1, by omega, ?_, fun j hj => hconf j (by omega)⟩
        show (i : Int) - 1 = ((i - 1 : Nat) : Int)
        omega
    · rw [if_neg hc]
      by_cases h15 : i = NR_THERMAL_ZONES - 1
      · rw [if_pos h15]
        exact Or.inr (hhere hc)
      · rw [if_neg h15]
        split_ifs with h1 h2 h3 h4
        · exact Or.inr (hhere hc)
        · exact Or.inl h3.2.1
        · exact hrec h15 hc
        · exact Or.inl rfl
        · exact hrec h15 hc

/-- C11: for every zone table, temperature and previous zone, after the tick
`curr_zone` is `UNTHROTTLE_ZONE` or an index `k` below 16 such that the zones
`0 .. k` are all configured; so it lies strictly below every unconfigured zone,
and it is `UNTHROTTLE_ZONE` whenever zone 0 is unconfigured. -/
theorem classification_range (t : thermal_policy) (temp : Int) :
    ((msm_thermal_main t (some temp)).t.curr_zone = UNTHROTTLE_ZONE ∨
      ∃ k, k < NR_THERMAL_ZONES ∧
        (msm_thermal_main t (some temp)).t.curr_zone = (k : Int) ∧
        ∀ j, j ≤ k → (t.zone j).freq0 ≠ 0) ∧
    (∀ m : Nat, (t.zone m).freq0 = 0 →
      (msm_thermal_main t (some temp)).t.curr_zone < (m : Int)) ∧
    ((t.zone 0).freq0 = 0 →
      (msm_thermal_main t (some temp)).t.curr_zone = UNTHROTTLE_ZONE) := by
  rw [msm_thermal_main_curr_zone]
  have hr := zone_loop_range t temp NR_THERMAL_ZONES 0 rfl (by decide)
    (fun j hj => absurd hj (Nat.not_lt_zero j))
  refine ⟨hr, ?_, ?_⟩
  · intro m hm
    rcases hr with h | ⟨k, _, hk, hconf⟩
    · rw [h]
      unfold UNTHROTTLE_ZONE
      omega
    · rw [hk]
      have : k < m := by
        by_contra hc
        exact hconf m (by omega) hm
      omega
  · intro h0
    rcases hr with h | ⟨k, _, _, hconf⟩
    · exact h
    · exact absurd h0 (hconf 0 (Nat.zero_le k))

/-- On the example table with zone 3 unconfigured the tick at 100 degrees ends
in zone 2, below zone 3; on a zeroed table it ends in `UNTHROTTLE_ZONE`. -/
theorem classification_range_witness :
    (example_policy true 0).zone 3 = zero_zone ∧
    (msm_thermal_main (example_policy true 0) (some 100)).t.curr_zone = 2 ∧
    (msm_thermal_main (example_policy true 0) (some 100)).t.curr_zone < ((3 : Nat) : Int) ∧
    (msm_thermal_main { example_policy true 0 with zone := fun _ => zero_zone }
      (some 100)).t.curr_zone = UNTHROTTLE_ZONE :=
  ⟨by decide, by decide,
    (classification_range (example_policy true 0) 100).2.1 3 (by decide),
    (classification_range { example_policy true 0 with zone := fun _ => zero_zone } 100).2.2
      (by decide)⟩

/-! ## Disabling and sensor errors (claims C12 and C13) -/

/-- C12: on every state, disabling (`enabled_write` with a value that parses
to 0) sets `curr_zone` to `UNTHROTTLE_ZONE`, calls `update_online_cpu_policy`,
and leaves `throttle_active` and the zone table unchanged; the clamp that
follows sets `policy.max` to `user_policy.max` and clears `throttle_active`
when throttling was active, and returns the proposal unmodified when it was
not. -/
theorem disable_unthrottles (t : thermal_policy) (policy : cpufreq_policy) :
    (enabled_write t (some 0)).ok = true ∧
    (enabled_write t (some 0)).t.curr_zone = UNTHROTTLE_ZONE ∧
    (enabled_write t (some 0)).update_policy = true ∧
    (enabled_write t (some 0)).queued = false ∧
    (enabled_write t (some 0)).t.throttle_active = t.throttle_active ∧
    (enabled_write t (some 0)).t.zone = t.zone ∧
    (t.throttle_active = true →
      ∃ t1 p1, do_cpu_throttle (enabled_write t (some 0)).t CPUFREQ_ADJUST policy =
          some (t1, p1) ∧
        p1.max = policy.user_policy_max ∧ t1.throttle_active = false ∧
        t1.curr_zone = UNTHROTTLE_ZONE ∧ t1.zone = t.zone) ∧
    (t.throttle_active = false →
      do_cpu_throttle (enabled_write t (some 0)).t CPUFREQ_ADJUST policy =
        some ((enabled_write t (some 0)).t, policy)) := by
  refine ⟨rfl, rfl, rfl, rfl, rfl, rfl, ?_, ?_⟩
  · intro ha
    unfold do_cpu_throttle
    have h1 : (enabled_write t (some 0)).t.throttle_active = true := ha
    have h2 : (enabled_write t (some 0)).t.curr_zone = UNTHROTTLE_ZONE := rfl
    simp only [h1, h2, ne_eq, not_true_eq_false, if_false, Bool.not_true,
      Bool.false_eq_true, if_true]
    split_ifs <;> exact ⟨_, _, rfl, rfl, rfl, rfl, rfl⟩
  · intro ha
    unfold do_cpu_throttle
    have h1 : (enabled_write t (some 0)).t.throttle_active = false := ha
    simp [h1]

/-- Disabling the example policy throttled in zone 2: the zone becomes
`UNTHROTTLE_ZONE`, and the clamp for cpu 2 restores the maximum 1500 and clears
`throttle_active`. -/
theorem disable_unthrottles_witness :
    (example_policy true 2).throttle_active = true ∧
    (enabled_write (example_policy true 2) (some 0)).t.curr_zone = UNTHROTTLE_ZONE ∧
    ∃ t1 p1,
      do_cpu_throttle (enabled_write (example_policy true 2) (some 0)).t CPUFREQ_ADJUST
        ⟨2, 600, 700, 1500, [600, 900, 1200, 1500]⟩ = some (t1, p1) ∧
      p1.max = 1500 ∧ t1.throttle_active = false :=
  ⟨rfl,
    (disable_unthrottles (example_policy true 2)
      ⟨2, 600, 700, 1500, [600, 900, 1200, 1500]⟩).2.1,
    by
      obtain ⟨t1, p1, h, hm, ha, _, _⟩ :=
        (disable_unthrottles (example_policy true 2)
          ⟨2, 600, 700, 1500, [600, 900, 1200, 1500]⟩).2.2.2.2.2.2.1 rfl
      exact ⟨t1, p1, h, hm, ha⟩⟩

/-- C13: on every state, a tick whose sensor read fails leaves the whole
policy (`curr_zone`, `throttle_active`, the zone table, the configuration)
unchanged, does not call `update_online_cpu_policy`, and queues the next tick
after `sampling_ms`. -/
theorem sensor_error_skips_tick (t : thermal_policy) :
    (msm_thermal_main t none).t.curr_zone = t.curr_zone ∧
    (msm_thermal_main t none).t.throttle_active = t.throttle_active ∧
    (msm_thermal_main t none).t.zone = t.zone ∧
    (msm_thermal_main t none).t.conf = t.conf ∧
    (msm_thermal_main t none).update_policy = false ∧
    (msm_thermal_main t none).resched_ms = t.conf.sampling_ms :=
  ⟨rfl, rfl, rfl, rfl, rfl, rfl⟩

/-! ## The configuration surface (claim C15) -/

theorem zone_attr_number_lt (name : Option Nat) (h : name ∈ sysfs_zone_attr_init) :
    get_thermal_zone_number name < NR_THERMAL_ZONES := by
  unfold sysfs_zone_attr_init at h
  obtain ⟨i, hi, rfl⟩ := List.mem_map.mp h
  exact List.mem_range.mp hi

/-- C15, as the code has it: in the state that a successful
`msm_thermal_probe` publishes, before any write, the reads give
`sampling_ms = 3000`, four zeros for every zone attribute (every zone is
unconfigured), and `enabled = 0`: `kzalloc` leaves `conf.enabled` false and the
probe does not set it. -/
theorem startup_defaults (mem wq : Bool) (dt sysfs : Int) (t0 : thermal_policy)
    (h : msm_thermal_probe mem wq dt sysfs = Except.ok t0) :
    sampling_ms_read t0 = 3000 ∧
    (∀ name, name ∈ sysfs_zone_attr_init → thermal_zone_read t0 name = (0, 0, 0, 0)) ∧
    (∀ i, i < NR_THERMAL_ZONES → (t0.zone i).freq0 = 0) ∧
    enabled_read t0 = 0 ∧ t0.conf.enabled = false := by
  unfold msm_thermal_probe alloc_thermal_policy at h
  cases mem <;> cases wq <;> simp only [Bool.not_true, Bool.not_false, Bool.false_eq_true,
    if_true, if_false, reduceCtorEq] at h
  by_cases hdt : dt ≠ 0
  · rw [if_pos hdt] at h
    exact absurd h (by simp)
  · rw [if_neg hdt] at h
    by_cases hs : sysfs ≠ 0
    · simp only [if_pos hs] at h
      exact absurd h (by simp)
    · simp only [if_neg hs, Except.ok.injEq] at h
      subst h
      exact ⟨rfl, fun _ _ => rfl, fun _ _ => rfl, rfl, rfl⟩

/-- The probe with every step succeeding is such a start-up. -/
theorem startup_defaults_witness :
    ∃ t0, msm_thermal_probe true true 0 0 = Except.ok t0 ∧
      sampling_ms_read t0 = 3000 ∧ thermal_zone_read t0 (some 0) = (0, 0, 0, 0) ∧
      enabled_read t0 = 0 :=
  ⟨_, rfl,
    (startup_defaults true true 0 0 _ rfl).1,
    (startup_defaults true true 0 0 _ rfl).2.1 (some 0) (by decide),
    (startup_defaults true true 0 0 _ rfl).2.2.2.1⟩

/-- C15 as stated fails: after a successful probe `enabled` reads 0, not 1. -/
theorem startup_enabled_reads_zero :
    ∃ t0, msm_thermal_probe true true 0 0 = Except.ok t0 ∧
      t0.conf.enabled ≠ true ∧ enabled_read t0 = 0 :=
  ⟨_, rfl, by decide, rfl⟩

/-! ## The learned frequency (claim C16) -/

/-- The clamp on an active state in zone `z`, given what `validate_cpu_freq`
returns for the throttle frequency of the zone. -/
theorem do_cpu_throttle_in_zone (t : thermal_policy) (policy : cpufreq_policy)
    (z : Nat) (b : Bool) (s : Nat) (ha : t.throttle_active = true)
    (hz : t.curr_zone = (z : Int))
    (hv : validate_cpu_freq policy.freq_table
      (get_throttle_freq t (z : Int) policy.cpu) = some (b, s)) :
    ∃ t1 p1, do_cpu_throttle t CPUFREQ_ADJUST policy = some (t1, p1) ∧
      t1 = (if b = true then set_throttle_freq t (z : Int) policy.cpu s else t) ∧
      p1.max = min policy.max s ∧ p1.min = min policy.min p1.max := by
  have hzu : ¬ ((z : Int) = UNTHROTTLE_ZONE) := by
    unfold UNTHROTTLE_ZONE
    omega
  have hd : do_cpu_throttle t CPUFREQ_ADJUST policy =
      some (if b = true then set_throttle_freq t (z : Int) policy.cpu s else t,
        if (if policy.max > s then { policy with max := s } else policy).min >
            (if policy.max > s then { policy with max := s } else policy).max then
          { (if policy.max > s then { policy with max := s } else policy) with
            min := (if policy.max > s then { policy with max := s } else policy).max }
        else (if policy.max > s then { policy with max := s } else policy)) := by
    unfold do_cpu_throttle
    simp only [ha, hz, ne_eq, not_true_eq_false, if_false, Bool.not_true,
      Bool.false_eq_true, if_neg hzu, hv]
  refine ⟨_, _, hd, rfl, ?_⟩
  by_cases h1 : policy.max > s
  · by_cases h2 : policy.min > s
    · simp only [if_pos h1, if_pos h2]
      constructor <;> omega
    · simp only [if_pos h1, if_neg h2]
      constructor <;> omega
  · by_cases h2 : policy.min > policy.max
    · simp only [if_neg h1, if_pos h2]
      constructor <;> omega
    · simp only [if_neg h1, if_neg h2]
      constructor <;> omega

/-- What `set_throttle_freq` writes and what it leaves, for a cpu below 32: the
frequency of the family of `cpu` in zone `z` becomes `freq`; the trip, the
reset, the frequency of the other family and every other zone stay. -/
theorem set_throttle_freq_frame (t : thermal_policy) (z : Nat) (cpu freq : Nat)
    (hcpu : cpu < 32) :
    get_throttle_freq (set_throttle_freq t (z : Int) cpu freq) (z : Int) cpu = freq ∧
    ((set_throttle_freq t (z : Int) cpu freq).zone z).trip_degC = (t.zone z).trip_degC ∧
    ((set_throttle_freq t (z : Int) cpu freq).zone z).reset_degC = (t.zone z).reset_degC ∧
    (if cpu = 0 ∨ cpu = 1 then
      ((set_throttle_freq t (z : Int) cpu freq).zone z).freq1 = (t.zone z).freq1
     else ((set_throttle_freq t (z : Int) cpu freq).zone z).freq0 = (t.zone z).freq0) ∧
    (∀ j, j ≠ z → (set_throttle_freq t (z : Int) cpu freq).zone j = t.zone j) := by
  by_cases h : cpu = 0 ∨ cpu = 1
  · have hm := (little_cpu_iff cpu hcpu).mpr h
    refine ⟨?_, ?_, ?_, ?_, ?_⟩
    · simp [get_throttle_freq, set_throttle_freq, hm]
    · simp [set_throttle_freq, hm]
    · simp [set_throttle_freq, hm]
    · rw [if_pos h]
      simp [set_throttle_freq, hm]
    · intro j hj
      simp [set_throttle_freq, Function.update_noteq hj]
  · have hm : ¬ (CPU_MASK cpu &&& LITTLE_CPU_MASK ≠ 0) :=
      fun hc => h ((little_cpu_iff cpu hcpu).mp hc)
    refine ⟨?_, ?_, ?_, ?_, ?_⟩
    · simp only [get_throttle_freq, set_throttle_freq, Int.toNat_ofNat, if_neg hm,
        Function.update_same]
    · simp only [set_throttle_freq, Int.toNat_ofNat, if_neg hm, Function.update_same]
    · simp only [set_throttle_freq, Int.toNat_ofNat, if_neg hm, Function.update_same]
    · rw [if_neg h]
      simp only [set_throttle_freq, Int.toNat_ofNat, if_neg hm, Function.update_same]
    · intro j hj
      simp [set_throttle_freq, Function.update_noteq hj]

theorem get_throttle_freq_same_family (t : thermal_policy) (z : Nat) (c c2 : Nat)
    (hc32 : c < 32) (hc2 : c2 < 32)
    (h : (c2 = 0 ∨ c2 = 1) ↔ (c = 0 ∨ c = 1)) :
    get_throttle_freq t (z : Int) c2 = get_throttle_freq t (z : Int) c := by
  rw [get_throttle_freq_eq t z c2 hc2, get_throttle_freq_eq t z c hc32]
  by_cases hc : c = 0 ∨ c = 1
  · rw [if_pos hc, if_pos (h.mpr hc)]
  · rw [if_neg hc, if_neg (fun h2 => hc (h.mp h2))]

/-- C16 (LearnedFrequency): on every throttled state (`throttle_active`, zone
`z` in `[0, 16)`) and for every proposal for a cpu below 32 (the cpus for
which `1U << cpu` is defined) whose frequency table has non-empty ascending
valid steps, one clamp leaves the throttle frequency of the family
of the cpu in zone `z` equal to the snapped value `s`, a step of the table, and
changes neither the trip, the reset, the frequency of the other family, any
other zone, `curr_zone` nor `throttle_active`; `validate_cpu_freq` returns
`true` exactly when `s` differs from the stored frequency; and a second clamp
for the same zone, family and table finds `validate_cpu_freq` returning
`false`, writes nothing and applies the same ceiling `s`. -/
theorem learned_frequency (t : thermal_policy) (policy : cpufreq_policy) (z : Nat)
    (ha : t.throttle_active = true) (hz : t.curr_zone = (z : Int))
    (_hz16 : z < NR_THERMAL_ZONES) (hcpu : policy.cpu < 32)
    (hne : valid_steps policy.freq_table ≠ [])
    (hasc : (valid_steps policy.freq_table).Pairwise (· < ·)) :
    ∃ b s t1 p1,
      validate_cpu_freq policy.freq_table
        (get_throttle_freq t (z : Int) policy.cpu) = some (b, s) ∧
      do_cpu_throttle t CPUFREQ_ADJUST policy = some (t1, p1) ∧
      s ∈ valid_steps policy.freq_table ∧
      (b = true ↔ s ≠ get_throttle_freq t (z : Int) policy.cpu) ∧
      get_throttle_freq t1 (z : Int) policy.cpu = s ∧
      (t1.zone z).trip_degC = (t.zone z).trip_degC ∧
      (t1.zone z).reset_degC = (t.zone z).reset_degC ∧
      (if policy.cpu = 0 ∨ policy.cpu = 1 then (t1.zone z).freq1 = (t.zone z).freq1
       else (t1.zone z).freq0 = (t.zone z).freq0) ∧
      (∀ j, j ≠ z → t1.zone j = t.zone j) ∧
      t1.curr_zone = t.curr_zone ∧ t1.throttle_active = t.throttle_active ∧
      (∀ policy2 : cpufreq_policy, policy2.cpu < 32 →
        ((policy2.cpu = 0 ∨ policy2.cpu = 1) ↔ (policy.cpu = 0 ∨ policy.cpu = 1)) →
        policy2.freq_table = policy.freq_table →
        validate_cpu_freq policy2.freq_table
          (get_throttle_freq t1 (z : Int) policy2.cpu) = some (false, s) ∧
        ∃ p2, do_cpu_throttle t1 CPUFREQ_ADJUST policy2 = some (t1, p2) ∧
          p2.max = min policy2.max s) := by
  have hv := validate_cpu_freq_eq_snap policy.freq_table
    (get_throttle_freq t (z : Int) policy.cpu) hne
  have hmem := (snap_contract (valid_steps policy.freq_table)
    (get_throttle_freq t (z : Int) policy.cpu) hne hasc).2.2.2.2
  obtain ⟨t1, p1, hd, ht1, _, _⟩ := do_cpu_throttle_in_zone t policy z _ _ ha hz hv
  have hfr := set_throttle_freq_frame t z policy.cpu
    (snap_at_or_above (valid_steps policy.freq_table)
      (get_throttle_freq t (z : Int) policy.cpu)) hcpu
  -- the facts about the state after the first clamp, in both cases of the write
  have hstate : ∀ t1 : thermal_policy,
      t1 = (if decide (snap_at_or_above (valid_steps policy.freq_table)
          (get_throttle_freq t (z : Int) policy.cpu) ≠
            get_throttle_freq t (z : Int) policy.cpu) = true
        then set_throttle_freq t (z : Int) policy.cpu
          (snap_at_or_above (valid_steps policy.freq_table)
            (get_throttle_freq t (z : Int) policy.cpu))
        else t) →
      get_throttle_freq t1 (z : Int) policy.cpu =
        snap_at_or_above (valid_steps policy.freq_table)
          (get_throttle_freq t (z : Int) policy.cpu) ∧
      (t1.zone z).trip_degC = (t.zone z).trip_degC ∧
      (t1.zone z).reset_degC = (t.zone z).reset_degC ∧
      (if policy.cpu = 0 ∨ policy.cpu = 1 then (t1.zone z).freq1 = (t.zone z).freq1
       else (t1.zone z).freq0 = (t.zone z).freq0) ∧
      (∀ j, j ≠ z → t1.zone j = t.zone j) ∧
      t1.curr_zone = t.curr_zone ∧ t1.throttle_active = t.throttle_active := by
    intro t1 ht1
    by_cases hb : snap_at_or_above (valid_steps policy.freq_table)
        (get_throttle_freq t (z : Int) policy.cpu) ≠
          get_throttle_freq t (z : Int) policy.cpu
    · rw [if_pos (decide_eq_true hb)] at ht1
      subst ht1
      exact ⟨hfr.1, hfr.2.1, hfr.2.2.1, hfr.2.2.2.1, hfr.2.2.2.2, rfl, rfl⟩
    · rw [if_neg (by simpa using hb)] at ht1
      subst ht1
      refine ⟨(not_not.mp hb).symm, rfl, rfl, ?_, fun _ _ => rfl, rfl, rfl⟩
      split_ifs <;> rfl
  obtain ⟨hget, htrip, hreset, hother, hzones, hcz, hact⟩ := hstate t1 ht1
  refine ⟨_, _, t1, p1, hv, hd, hmem, by simp, hget, htrip, hreset, hother, hzones,
    hcz, hact, ?_⟩
  intro policy2 hcpu2 hfam htbl
  have hget2 :=
    (get_throttle_freq_same_family t1 z policy.cpu policy2.cpu hcpu hcpu2 hfam).trans hget
  have hfix := (snap_contract (valid_steps policy.freq_table)
    (snap_at_or_above (valid_steps policy.freq_table)
      (get_throttle_freq t (z : Int) policy.cpu)) hne hasc).2.1 hmem
  have hv2 := validate_cpu_freq_eq_snap policy.freq_table
    (snap_at_or_above (valid_steps policy.freq_table)
      (get_throttle_freq t (z : Int) policy.cpu)) hne
  rw [hfix] at hv2
  simp only [ne_eq, not_true_eq_false, decide_False] at hv2
  have hv3 : validate_cpu_freq policy2.freq_table
      (get_throttle_freq t1 (z : Int) policy2.cpu) =
        some (false, snap_at_or_above (valid_steps policy.freq_table)
          (get_throttle_freq t (z : Int) policy.cpu)) := by
    rw [htbl, hget2]
    exact hv2
  refine ⟨hv3, ?_⟩
  obtain ⟨t2, p2, hd2, ht2, hmax2, _⟩ :=
    do_cpu_throttle_in_zone t1 policy2 z false _ (hact.trans ha) (hcz.trans hz) hv3
  rw [if_neg (by decide)] at ht2
  subst ht2
  exact ⟨p2, hd2, hmax2⟩

/-- In zone 1 of the example table (big frequency 800) a clamp for cpu 2 over
the table 600, 900, 1200, 1500 stores 900 as the big frequency of zone 1; the
second clamp writes nothing and caps the maximum at 900 again. -/
theorem learned_frequency_witness :
    (example_policy true 1).throttle_active = true ∧
    (example_policy true 1).curr_zone = ((1 : Nat) : Int) ∧
    (cpufreq_policy.mk 2 600 1500 1500 [600, 900, 1200, 1500]).cpu < 32 ∧
    valid_steps [600, 900, 1200, 1500] ≠ [] ∧
    (valid_steps [600, 900, 1200, 1500]).Pairwise (· < ·) ∧
    ∃ t1 p1,
      do_cpu_throttle (example_policy true 1) CPUFREQ_ADJUST
        ⟨2, 600, 1500, 1500, [600, 900, 1200, 1500]⟩ = some (t1, p1) ∧
      get_throttle_freq t1 ((1 : Nat) : Int) 2 = 900 ∧
      ∃ p2, do_cpu_throttle t1 CPUFREQ_ADJUST
          ⟨2, 600, 1500, 1500, [600, 900, 1200, 1500]⟩ = some (t1, p2) ∧
        p2.max = 900 := by
  have hne : valid_steps [600, 900, 1200, 1500] ≠ [] := by decide
  have hasc : (valid_steps [600, 900, 1200, 1500]).Pairwise (· < ·) := by decide
  refine ⟨rfl, rfl, by decide, hne, hasc, ?_⟩
  obtain ⟨b, s, t1, p1, hv, hd, _, _, hget, _, _, _, _, _, _, hsecond⟩ :=
    learned_frequency (example_policy true 1)
      ⟨2, 600, 1500, 1500, [600, 900, 1200, 1500]⟩ 1 rfl rfl (by decide) (by decide)
      hne hasc
  have hv2 : validate_cpu_freq
      (cpufreq_policy.mk 2 600 1500 1500 [600, 900, 1200, 1500]).freq_table
      (get_throttle_freq (example_policy true 1) ((1 : Nat) : Int)
        (cpufreq_policy.mk 2 600 1500 1500 [600, 900, 1200, 1500]).cpu) =
        some (true, 900) := by
    decide
  rw [hv2] at hv
  have hs : s = 900 := by
    simp only [Option.some.injEq, Prod.mk.injEq] at hv
    exact hv.2.symm
  subst hs
  obtain ⟨_, p2, hd2, hmax2⟩ :=
    hsecond ⟨2, 600, 1500, 1500, [600, 900, 1200, 1500]⟩ (by decide) Iff.rfl rfl
  exact ⟨t1, p1, hd, hget, p2, hd2, by rw [hmax2]; decide⟩

/-! ## The classification in closed form (claims C18 and C19) -/

/-- With strictly increasing trips the zones whose trip is at or below `temp`
are exactly the first `trips_at_or_below` zones. -/
theorem trips_at_or_below_spec (zone : Nat → thermal_zone) (n : Nat) (temp : Int)
    (htrip : ∀ k, k < n → ∀ j, j < k → (zone j).trip_degC < (zone k).trip_degC) :
    ∀ m, m ≤ n →
      trips_at_or_below zone m temp ≤ m ∧
      ∀ j, j < m → ((zone j).trip_degC ≤ temp ↔ j < trips_at_or_below zone m temp) := by
  intro m
  induction m with
  | zero =>
    intro _
    exact ⟨Nat.le_refl _, fun j hj => absurd hj (Nat.not_lt_zero j)⟩
  | succ m ih =>
    intro hm
    obtain ⟨hle, hiff⟩ := ih (Nat.le_of_succ_le hm)
    have hcount : trips_at_or_below zone (m + 1) temp =
        trips_at_or_below zone m temp + if (zone m).trip_degC ≤ temp then 1 else 0 := by
      unfold trips_at_or_below
      rw [List.range_succ, List.countP_append, List.countP_singleton]
      simp
    by_cases hp : (zone m).trip_degC ≤ temp
    · rw [hcount, if_pos hp]
      have hall : trips_at_or_below zone m temp = m := by
        rcases Nat.eq_zero_or_pos m with h0 | h0
        · omega
        · have hprev : (zone (m - 1)).trip_degC ≤ temp :=
            le_trans (le_of_lt (htrip m (by omega) (m - 1) (by omega))) hp
          have := (hiff (m - 1) (by omega)).mp hprev
          omega
      refine ⟨by omega, fun j hj => ⟨fun _ => by omega, fun _ => ?_⟩⟩
      rcases Nat.lt_or_eq_of_le (Nat.le_of_lt_succ hj) with h | h
      · exact le_trans (le_of_lt (htrip m (by omega) j h)) hp
      · rw [h]; exact hp
    · rw [hcount, if_neg hp]
      refine ⟨by omega, fun j hj => ?_⟩
      rcases Nat.lt_or_eq_of_le (Nat.le_of_lt_succ hj) with h | h
      · simpa using hiff j h
      · rw [h]
        exact ⟨fun h2 => absurd h2 hp, fun h2 => by omega⟩

/-- The loop passes every index below `i` when each of them is configured, is
not the last zone, lies with its reset below the temperature and has its
successor trip at or below it. -/
theorem zone_loop_reach_to (t : thermal_policy) (temp : Int) (i : Nat)
    (hi : i < NR_THERMAL_ZONES)
    (hadv : ∀ j, j < i → (t.zone j).freq0 ≠ 0 ∧ (t.zone j).reset_degC < temp ∧
      (t.zone (j + 1)).trip_degC ≤ temp)
    (h0 : 0 < i → (t.zone 0).trip_degC ≤ temp) :
    ∀ k, k ≤ i →
      zone_loop t temp NR_THERMAL_ZONES 0 = zone_loop t temp (NR_THERMAL_ZONES - k) k := by
  have h16 : NR_THERMAL_ZONES = 16 := rfl
  intro k
  induction k with
  | zero => intro _; rfl
  | succ k ih =>
    intro hk
    rw [ih (Nat.le_of_succ_le hk)]
    have hm : NR_THERMAL_ZONES - k = (NR_THERMAL_ZONES - (k + 1)) + 1 := by omega
    obtain ⟨hc, hr, hn⟩ := hadv k hk
    rw [hm]
    exact zone_loop_advance t temp _ k hc (by omega) hr hn
      (fun _ _ => h0 (by omega))

/-- The loop stops at a configured zone `i` whose trip is at or below the
temperature when the next configured zone, if there is one, has its trip above
it. -/
theorem zone_loop_settle (t : thermal_policy) (n i : Nat) (temp : Int)
    (hw : well_formed t.zone n) (hi : i < n)
    (hT : (t.zone i).trip_degC ≤ temp)
    (hnext : i + 1 < n → temp < (t.zone (i + 1)).trip_degC) :
    (zone_loop t temp (NR_THERMAL_ZONES - i) i).curr_zone = (i : Int) := by
  obtain ⟨_, hn16, hconf, hlast, htrip, hreset⟩ := hw
  have h16 : NR_THERMAL_ZONES = 16 := rfl
  have hm : NR_THERMAL_ZONES - i = (NR_THERMAL_ZONES - 1 - i) + 1 := by omega
  rw [hm, zone_loop, if_neg (hconf i hi)]
  by_cases h15 : i = NR_THERMAL_ZONES - 1
  · rw [if_pos h15]
  · rw [if_neg h15,
      if_pos (show temp > (t.zone i).reset_degC from lt_of_lt_of_le (hreset i hi) hT)]
    by_cases hlt : temp < (t.zone (i + 1)).trip_degC
    · rw [if_pos ⟨hlt, Or.inl hT⟩]
    · have h1 : ¬ (temp < (t.zone (i + 1)).trip_degC ∧
          (temp ≥ (t.zone i).trip_degC ∨ t.curr_zone ≠ UNTHROTTLE_ZONE)) :=
        fun h => hlt h.1
      have h2 : ¬ (i = 0 ∧ t.curr_zone = UNTHROTTLE_ZONE ∧
          temp < (t.zone 0).trip_degC) := by
        rintro ⟨rfl, _, h⟩
        exact absurd hT (not_le.mpr h)
      rw [if_neg h1, if_neg h2]
      have hin : i + 1 = n := by
        by_contra hne
        exact hlt (hnext (by omega))
      have hm2 : NR_THERMAL_ZONES - 1 - i = (NR_THERMAL_ZONES - 2 - i) + 1 := by omega
      have hz : (t.zone (i + 1)).freq0 = 0 := by
        rw [hin]
        exact hlast (by omega)
      rw [hm2, zone_loop, if_pos hz]
      show ((i + 1 : Nat) : Int) - 1 = (i : Int)
      push_cast
      ring

/-- The loop on a well-formed table in closed form: with `k` the number of
configured zones whose trip is at or below the temperature, the result depends
only on `k`, on the reset of zone 0 and on whether the previous zone was
`UNTHROTTLE_ZONE`. -/
theorem zone_loop_closed_form (t : thermal_policy) (n : Nat) (temp : Int)
    (hw : well_formed t.zone n) :
    (zone_loop t temp NR_THERMAL_ZONES 0).curr_zone =
      if t.curr_zone = UNTHROTTLE_ZONE then
        (if trips_at_or_below t.zone n temp = 0 then UNTHROTTLE_ZONE
         else (trips_at_or_below t.zone n temp : Int) - 1)
      else
        (if temp ≤ (t.zone 0).reset_degC then UNTHROTTLE_ZONE
         else max ((trips_at_or_below t.zone n temp : Int) - 1) 0) := by
  have hw2 := hw
  obtain ⟨hn1, hn16, hconf, hlast, htrip, hreset⟩ := hw2
  have h16 : NR_THERMAL_ZONES = 16 := rfl
  obtain ⟨hkn, hk⟩ := trips_at_or_below_spec t.zone n temp htrip n (Nat.le_refl n)
  have hu : UNTHROTTLE_ZONE = -1 := rfl
  rcases le_or_lt temp (t.zone 0).reset_degC with hr | hr
  · -- at or below the reset of zone 0
    have hk0 : trips_at_or_below t.zone n temp = 0 := by
      by_contra hne
      have h1 := (hk 0 (by omega)).mpr (by omega)
      have h2 := hreset 0 (by omega)
      exact absurd (lt_of_lt_of_le h2 h1) (not_lt.mpr hr)
    rw [zone_loop_at_or_below_reset t temp hr, hk0, if_pos rfl, if_pos hr]
    split_ifs <;> rfl
  · rw [if_neg (not_le.mpr hr)]
    rcases Nat.eq_zero_or_pos (trips_at_or_below t.zone n temp) with hk0 | hkpos
    · -- above the reset and below the trip of zone 0
      have htlt : temp < (t.zone 0).trip_degC := by
        by_contra hc
        have := (hk 0 (by omega)).mp (not_lt.mp hc)
        omega
      rw [hk0]
      show (zone_loop t temp (15 + 1) 0).curr_zone = _
      rw [zone_loop, if_neg (hconf 0 (by omega)), if_neg (by decide),
        if_pos (show temp > (t.zone 0).reset_degC from hr)]
      by_cases hp : t.curr_zone = UNTHROTTLE_ZONE
      · have h1 : ¬ (temp < (t.zone (0 + 1)).trip_degC ∧
            (temp ≥ (t.zone 0).trip_degC ∨ t.curr_zone ≠ UNTHROTTLE_ZONE)) := by
          rintro ⟨_, h | h⟩
          · exact absurd htlt (not_lt.mpr h)
          · exact h hp
        rw [if_neg h1, if_pos ⟨rfl, hp, htlt⟩, if_pos hp, if_pos rfl]
        exact hp
      · rw [if_neg hp]
        by_cases hlt : temp < (t.zone (0 + 1)).trip_degC
        · rw [if_pos ⟨hlt, Or.inr hp⟩]
          simp
        · have h1 : ¬ (temp < (t.zone (0 + 1)).trip_degC ∧
              (temp ≥ (t.zone 0).trip_degC ∨ t.curr_zone ≠ UNTHROTTLE_ZONE)) :=
            fun h => hlt h.1
          have h2 : ¬ (0 = 0 ∧ t.curr_zone = UNTHROTTLE_ZONE ∧
              temp < (t.zone 0).trip_degC) := fun h => hp h.2.1
          have hn : n = 1 := by
            by_contra hne
            have := htrip 1 (by omega) 0 (by omega)
            exact hlt (lt_trans htlt this)
          have hz : (t.zone (0 + 1)).freq0 = 0 := by
            have := hlast (by omega)
            rw [hn] at this
            exact this
          rw [if_neg h1, if_neg h2]
          show (zone_loop t temp (14 + 1) (0 + 1)).curr_zone = _
          rw [zone_loop, if_pos hz]
          simp
    · -- at or above the trip of zone 0: the last zone with its trip at or below
      have hi : trips_at_or_below t.zone n temp - 1 < n := by omega
      have hreach := zone_loop_reach_to t temp (trips_at_or_below t.zone n temp - 1)
        (by omega)
        (fun j hj => ⟨hconf j (by omega),
          lt_of_lt_of_le (hreset j (by omega)) ((hk j (by omega)).mpr (by omega)),
          (hk (j + 1) (by omega)).mpr (by omega)⟩)
        (fun _ => (hk 0 (by omega)).mpr (by omega))
        (trips_at_or_below t.zone n temp - 1) (Nat.le_refl _)
      have hsettle := zone_loop_settle t n (trips_at_or_below t.zone n temp - 1) temp hw hi
        ((hk _ hi).mpr (by omega))
        (fun hlt => by
          by_contra hc
          have := (hk _ hlt).mp (not_lt.mp hc)
          omega)
      rw [hreach, hsettle]
      have hcast : ((trips_at_or_below t.zone n temp - 1 : Nat) : Int) =
          (trips_at_or_below t.zone n temp : Int) - 1 := by omega
      rw [hcast]
      have hne : ¬ trips_at_or_below t.zone n temp = 0 := by omega
      rw [if_neg hne]
      have hmax : max ((trips_at_or_below t.zone n temp : Int) - 1) 0 =
          (trips_at_or_below t.zone n temp : Int) - 1 := by
        apply max_eq_left
        omega
      rw [hmax]
      split_ifs <;> rfl

theorem trips_at_or_below_congr (zone zone2 : Nat → thermal_zone) (n : Nat) (temp : Int)
    (h : ∀ j, j < n → (zone2 j).trip_degC = (zone j).trip_degC) :
    trips_at_or_below zone2 n temp = trips_at_or_below zone n temp := by
  unfold trips_at_or_below
  apply List.countP_congr
  intro j hj
  rw [h j (List.mem_range.mp hj)]

/-- C18: on every well-formed zone table (zones `0 .. n-1` configured with
`1 ≤ n ≤ 16`, zone `n` unconfigured when `n < 16`, trips strictly increasing,
every reset below its trip) and for every temperature, with `k` the number of
configured zones whose trip is at or below the temperature, the tick yields:
from `UNTHROTTLE_ZONE`, `UNTHROTTLE_ZONE` if `k = 0` and zone `k - 1`
otherwise; from every other previous zone, `UNTHROTTLE_ZONE` if the temperature
is at or below the reset of zone 0 and zone `max (k - 1) 0` otherwise.  So two
well-formed tables with the same trips and the same reset of zone 0 give the
same zone from any two previous zones that are both throttled or both
`UNTHROTTLE_ZONE`, whatever the resets of the zones `1 .. n-1` are. -/
theorem classification_closed_form (t : thermal_policy) (n : Nat) (temp : Int)
    (hw : well_formed t.zone n) :
    (t.curr_zone = UNTHROTTLE_ZONE →
      (msm_thermal_main t (some temp)).t.curr_zone =
        if trips_at_or_below t.zone n temp = 0 then UNTHROTTLE_ZONE
        else (trips_at_or_below t.zone n temp : Int) - 1) ∧
    (t.curr_zone ≠ UNTHROTTLE_ZONE →
      (msm_thermal_main t (some temp)).t.curr_zone =
        if temp ≤ (t.zone 0).reset_degC then UNTHROTTLE_ZONE
        else max ((trips_at_or_below t.zone n temp : Int) - 1) 0) ∧
    (∀ t2 : thermal_policy, well_formed t2.zone n →
      (∀ j, j < n → (t2.zone j).trip_degC = (t.zone j).trip_degC) →
      (t2.zone 0).reset_degC = (t.zone 0).reset_degC →
      (t2.curr_zone = UNTHROTTLE_ZONE ↔ t.curr_zone = UNTHROTTLE_ZONE) →
      (msm_thermal_main t2 (some temp)).t.curr_zone =
        (msm_thermal_main t (some temp)).t.curr_zone) := by
  have hform := zone_loop_closed_form t n temp hw
  refine ⟨?_, ?_, ?_⟩
  · intro hp
    rw [msm_thermal_main_curr_zone, hform, if_pos hp]
  · intro hp
    rw [msm_thermal_main_curr_zone, hform, if_neg hp]
  · intro t2 hw2 htrips hreset0 hprev
    rw [msm_thermal_main_curr_zone, msm_thermal_main_curr_zone, hform,
      zone_loop_closed_form t2 n temp hw2,
      trips_at_or_below_congr t.zone t2.zone n temp htrips, hreset0]
    by_cases hp : t.curr_zone = UNTHROTTLE_ZONE
    · rw [if_pos hp, if_pos (hprev.mpr hp)]
    · rw [if_neg hp, if_neg (fun h => hp (hprev.mp h))]

/-- On the example table (trips 40, 50, 60) at 55 degrees two trips are at or
below the temperature: from `UNTHROTTLE_ZONE` and from zone 2 alike the tick
yields zone 1. -/
theorem classification_closed_form_witness :
    well_formed (example_policy false UNTHROTTLE_ZONE).zone 3 ∧
    trips_at_or_below example_zones 3 55 = 2 ∧
    (msm_thermal_main (example_policy false UNTHROTTLE_ZONE) (some 55)).t.curr_zone =
      (if trips_at_or_below (example_policy false UNTHROTTLE_ZONE).zone 3 55 = 0
        then UNTHROTTLE_ZONE
        else (trips_at_or_below (example_policy false UNTHROTTLE_ZONE).zone 3 55 : Int) - 1) ∧
    (msm_thermal_main (example_policy true 2) (some 55)).t.curr_zone =
      (if (55 : Int) ≤ ((example_policy true 2).zone 0).reset_degC then UNTHROTTLE_ZONE
        else max ((trips_at_or_below (example_policy true 2).zone 3 55 : Int) - 1) 0) ∧
    (msm_thermal_main (example_policy true 2) (some 55)).t.curr_zone = 1 :=
  ⟨example_zones_well_formed, by decide,
    (classification_closed_form (example_policy false UNTHROTTLE_ZONE) 3 55
      example_zones_well_formed).1 rfl,
    (classification_closed_form (example_policy true 2) 3 55
      example_zones_well_formed).2.1 (by decide),
    by decide⟩

theorem zone_loop_zone (t : thermal_policy) (temp : Int) :
    ∀ (n i : Nat), (zone_loop t temp n i).zone = t.zone := by
  intro n
  induction n with
  | zero => intro i; rfl
  | succ n ih =>
    intro i
    rw [zone_loop]
    split_ifs <;> first | rfl | exact ih _

theorem msm_thermal_main_zone (t : thermal_policy) (temp : Int) :
    (msm_thermal_main t (some temp)).t.zone = t.zone := by
  simp only [msm_thermal_main]
  split_ifs
  · exact zone_loop_zone t temp _ _
  · exact zone_loop_zone t temp _ _

/-- C19: on every well-formed zone table (zones `0 .. n-1` configured, trips
strictly increasing, every reset below its trip; also on a table without a
configured zone), for every temperature and every previous zone, a second tick
at the same temperature leaves the zone of the first tick. -/
theorem classification_idempotent (t : thermal_policy) (n : Nat) (temp : Int)
    (hw : well_formed t.zone n ∨ (n = 0 ∧ (t.zone 0).freq0 = 0)) :
    (msm_thermal_main (msm_thermal_main t (some temp)).t (some temp)).t.curr_zone =
      (msm_thermal_main t (some temp)).t.curr_zone := by
  have hu : UNTHROTTLE_ZONE = -1 := rfl
  rcases hw with hw | ⟨_, hz⟩
  · have hw1 : well_formed (msm_thermal_main t (some temp)).t.zone n := by
      rw [msm_thermal_main_zone]
      exact hw
    have hr0 : ((msm_thermal_main t (some temp)).t.zone 0).reset_degC =
        (t.zone 0).reset_degC := by rw [msm_thermal_main_zone]
    have hk1 : trips_at_or_below (msm_thermal_main t (some temp)).t.zone n temp =
        trips_at_or_below t.zone n temp := by rw [msm_thermal_main_zone]
    have h2 := zone_loop_closed_form (msm_thermal_main t (some temp)).t n temp hw1
    rw [hr0, hk1] at h2
    have h1 := zone_loop_closed_form t n temp hw
    rw [msm_thermal_main_curr_zone (msm_thermal_main t (some temp)).t, h2]
    rw [msm_thermal_main_curr_zone t, h1]
    obtain ⟨hn1, _, _, _, htrip, hreset⟩ := hw
    obtain ⟨_, hk⟩ := trips_at_or_below_spec t.zone n temp htrip n (Nat.le_refl n)
    have hk0 := hk 0 (by omega)
    have hres0 := hreset 0 (by omega)
    by_cases hp : t.curr_zone = UNTHROTTLE_ZONE
    · rw [if_pos hp]
      by_cases hz : trips_at_or_below t.zone n temp = 0
      · rw [if_pos hz, if_pos rfl]
      · have hpos : 0 < trips_at_or_below t.zone n temp := Nat.pos_of_ne_zero hz
        have hne : ¬ ((trips_at_or_below t.zone n temp : Int) - 1 = UNTHROTTLE_ZONE) := by
          rw [hu]; omega
        have hnr : ¬ temp ≤ (t.zone 0).reset_degC :=
          not_le.mpr (lt_of_lt_of_le hres0 (hk0.mpr hpos))
        rw [if_neg hz, if_neg hne, if_neg hnr]
        apply max_eq_left
        omega
    · rw [if_neg hp]
      by_cases hr : temp ≤ (t.zone 0).reset_degC
      · have hz : trips_at_or_below t.zone n temp = 0 := by
          by_contra hne
          have := hk0.mpr (Nat.pos_of_ne_zero hne)
          exact absurd (lt_of_lt_of_le hres0 this) (not_lt.mpr hr)
        rw [if_pos hr, if_pos rfl, if_pos hz]
      · have hne : ¬ (max ((trips_at_or_below t.zone n temp : Int) - 1) 0 =
            UNTHROTTLE_ZONE) := by
          rw [hu]
          have := le_max_right ((trips_at_or_below t.zone n temp : Int) - 1) 0
          omega
        rw [if_neg hr, if_neg hne]
  · have hz1 : ((msm_thermal_main t (some temp)).t.zone 0).freq0 = 0 := by
      rw [msm_thermal_main_zone]
      exact hz
    have hfirst : ∀ t1 : thermal_policy, (t1.zone 0).freq0 = 0 →
        (zone_loop t1 temp NR_THERMAL_ZONES 0).curr_zone = UNTHROTTLE_ZONE := by
      intro t1 h
      show (zone_loop t1 temp (15 + 1) 0).curr_zone = UNTHROTTLE_ZONE
      rw [zone_loop, if_pos h]
      rfl
    rw [msm_thermal_main_curr_zone, msm_thermal_main_curr_zone, hfirst _ hz1, hfirst _ hz]

/-- On the example table, from zone 2, a first tick at 46 degrees yields zone 0
and a second tick at 46 degrees stays there. -/
theorem classification_idempotent_witness :
    well_formed (example_policy true 2).zone 3 ∧
    (msm_thermal_main (example_policy true 2) (some 46)).t.curr_zone = 0 ∧
    (msm_thermal_main (msm_thermal_main (example_policy true 2) (some 46)).t
      (some 46)).t.curr_zone =
      (msm_thermal_main (example_policy true 2) (some 46)).t.curr_zone :=
  ⟨example_zones_well_formed, by decide,
    classification_idempotent (example_policy true 2) 3 46
      (Or.inl example_zones_well_formed)⟩

end MsmThermal
